import Mathlib

/-!
# Steam Audio FMOD integration: source registry, hand-off state, mixer-return effect

A shallow embedding of `fmod/src/steamaudio_fmod.cpp` and `fmod/src/mix_return_effect.cpp`.

Conventions of the embedding.

* An engine object (`IPLContext`, `IPLHRTF`, `IPLSource`, ...) is a pointer, modelled as a
  natural number; `nullptr` is `0`.
* `int32_t` / `int` values are integers; arithmetic that can leave the 32-bit range is wrapped
  with `wrapInt32` (two's complement), `unsigned int` arithmetic is taken modulo `2 ^ 32`.
* Mutable objects are passed in and returned explicitly, and every operation is one
  sequential step. The mutexes of `SourceManager` appear only in the section on the locks of
  the registry, where each method is split into its lock, unlock and statement steps; the
  atomicity of the flags is not represented.
* `assert` is compiled out in the embedded functions (the `NDEBUG` behaviour); the asserted
  conditions are separate Boolean definitions evaluated at the point of the assertion.
-/

namespace SteamAudioFMOD

/-! ## Engine handles -/

abbrev IPLContext := Nat
abbrev IPLHRTF := Nat
abbrev IPLSource := Nat
abbrev IPLReflectionMixer := Nat
abbrev IPLAmbisonicsDecodeEffect := Nat

/-- The null pointer. -/
def nullptr : Nat := 0

/-- Result of 32-bit two's-complement arithmetic: the representative of `x` modulo `2 ^ 32`
in the range `-2 ^ 31 ≤ _ < 2 ^ 31`. -/
def wrapInt32 (x : Int) : Int := (x + 2147483648) % 4294967296 - 2147483648

/-- Engine API `iplSourceRetain`: takes a reference and returns the same handle. -/
def iplSourceRetain (source : IPLSource) : IPLSource := source

/-- Engine API `iplHRTFRetain`: takes a reference and returns the same handle. -/
def iplHRTFRetain (hrtf : IPLHRTF) : IPLHRTF := hrtf

/-- Engine API `iplContextRetain`: takes a reference and returns the same handle. -/
def iplContextRetain (context : IPLContext) : IPLContext := context

/-- Engine API `iplReflectionMixerRetain`: takes a reference and returns the same handle. -/
def iplReflectionMixerRetain (mixer : IPLReflectionMixer) : IPLReflectionMixer := mixer

/-- Engine API `ipl...Release(&p)`: drops the reference and writes `nullptr` to `p`; the value
returned here is the new content of the variable. -/
def iplRelease (_p : Nat) : Nat := nullptr

/-! ## `std::unordered_map<int32_t, IPLSource>` -/

/-- The handle-to-source map: `none` where the map has no entry. -/
abbrev SourceMap := Int → Option IPLSource

/-- The test `m.find(handle) != m.end()`. -/
def SourceMap.contains (m : SourceMap) (handle : Int) : Bool := (m handle).isSome

/-- The assignment `m[handle] = source`. -/
def SourceMap.assign (m : SourceMap) (handle : Int) (source : IPLSource) : SourceMap :=
  Function.update m handle (some source)

/-- The call `m.erase(handle)`. -/
def SourceMap.erase (m : SourceMap) (handle : Int) : SourceMap :=
  Function.update m handle none

/-- The read `m[handle]`: the stored value; when there is no entry, `operator[]` inserts a
value-initialised (null) one and returns it. -/
def SourceMap.index (m : SourceMap) (handle : Int) : IPLSource × SourceMap :=
  match m handle with
  | some source => (source, m)
  | none => (nullptr, Function.update m handle (some nullptr))

/-! ## SourceManager -/

/-- Modelled from the spec: the member declarations of `SourceManager` are in
`steamaudio_fmod.h`, which is not among the sources. The spec says the free handles are "kept
in a stack, i.e., most-recently-freed reused first"; `mFreeHandles` is that stack with its top
at the head of the list, `mNextHandle` the 32-bit counter initialised by the constructor and
`mSources` the handle-to-source map. -/
structure SourceManager where
  mNextHandle : Int
  mFreeHandles : List Int
  mSources : SourceMap

/-- The constructor `SourceManager::SourceManager()`: `mNextHandle(0)`, empty containers. -/
def SourceManager.ctor : SourceManager :=
  { mNextHandle := 0, mFreeHandles := [], mSources := fun _ => none }

/-- Handle selection of `addSource` (the block under `mHandleMutex`): the chosen handle, the
new counter and the new free pool. `mNextHandle++` is an increment of a 32-bit counter; past
`2 ^ 31 - 1` it is taken to wrap around. -/
def SourceManager.selectHandle (sm : SourceManager) : Int × Int × List Int :=
  match sm.mFreeHandles with
  | [] => (sm.mNextHandle, wrapInt32 (sm.mNextHandle + 1), [])
  | top :: rest => (top, sm.mNextHandle, rest)

/-- The condition of `assert(handle >= 0)` in `addSource`. -/
def SourceManager.assertHandleNonNegative (sm : SourceManager) : Bool :=
  decide (0 ≤ sm.selectHandle.1)

/-- The condition of `assert(mSources.find(handle) == mSources.end())` in `addSource`. -/
def SourceManager.assertHandleUnused (sm : SourceManager) : Bool :=
  !(sm.mSources.contains sm.selectHandle.1)

/-- The method `SourceManager::addSource`: the returned handle and the manager afterwards. -/
def SourceManager.addSource (sm : SourceManager) (source : IPLSource) : Int × SourceManager :=
  let sourceRetained := iplSourceRetain source
  let handle := sm.selectHandle.1
  (handle,
    { mNextHandle := sm.selectHandle.2.1
      mFreeHandles := sm.selectHandle.2.2
      mSources := sm.mSources.assign handle sourceRetained })

/-- The method `SourceManager::removeSource`. -/
def SourceManager.removeSource (sm : SourceManager) (handle : Int) : SourceManager :=
  let sources :=
    if sm.mSources.contains handle then
      ((sm.mSources.index handle).2.assign handle (iplRelease (sm.mSources.index handle).1)).erase
        handle
    else sm.mSources
  { mNextHandle := sm.mNextHandle
    mFreeHandles := handle :: sm.mFreeHandles
    mSources := sources }

/-- The method `SourceManager::getSource`: the returned source and the manager afterwards. -/
def SourceManager.getSource (sm : SourceManager) (handle : Int) : IPLSource × SourceManager :=
  if sm.mSources.contains handle then
    ((sm.mSources.index handle).1, { sm with mSources := (sm.mSources.index handle).2 })
  else
    (nullptr, sm)

/-! ### Call sequences on a registry -/

/-- One call on the registry. -/
inductive RegistryCall where
  | addSource (source : IPLSource)
  | removeSource (handle : Int)
  deriving DecidableEq, Repr

/-- What a call did: the handle `addSource` returned for a source, or the handle removed. -/
inductive RegistryEvent where
  | added (handle : Int) (source : IPLSource)
  | removed (handle : Int)
  deriving DecidableEq, Repr

/-- A registry together with the log of the calls made on it, most recent first. -/
structure RegistryTrace where
  manager : SourceManager
  log : List RegistryEvent

/-- Perform one call and log it. -/
def RegistryTrace.call (t : RegistryTrace) : RegistryCall → RegistryTrace
  | .addSource source =>
    { manager := (t.manager.addSource source).2
      log := .added (t.manager.addSource source).1 source :: t.log }
  | .removeSource handle =>
    { manager := t.manager.removeSource handle
      log := .removed handle :: t.log }

/-- Perform a sequence of calls, in order, on a manager. -/
def SourceManager.run (sm : SourceManager) (calls : List RegistryCall) : RegistryTrace :=
  calls.foldl RegistryTrace.call { manager := sm, log := [] }

/-- A manager is reachable when some sequence of calls on a fresh manager produces it. -/
def SourceManager.Reachable (sm : SourceManager) : Prop :=
  ∃ calls : List RegistryCall, (SourceManager.ctor.run calls).manager = sm

/-- The resolution the spec prescribes, read off a log (most recent call first): the source of
the most recent registration that returned `handle`, unless `handle` was unregistered since;
null otherwise. -/
def resolveSpec : List RegistryEvent → Int → IPLSource
  | [], _ => nullptr
  | .added h source :: older, handle => if h = handle then source else resolveSpec older handle
  | .removed h :: older, handle => if h = handle then nullptr else resolveSpec older handle

/-- Consecutive `addSource` calls, one per source: the handles returned, in order, and the
manager afterwards. -/
def SourceManager.addSources (sm : SourceManager) : List IPLSource → List Int × SourceManager
  | [] => ([], sm)
  | source :: rest =>
    ((sm.addSource source).1 :: ((sm.addSource source).2.addSources rest).1,
      ((sm.addSource source).2.addSources rest).2)

/-! ## Global state (`steamaudio_fmod.cpp`, "Global State") -/

/-- Engine type `IPLSimulationSettings`, with the fields the sources read. -/
structure IPLSimulationSettings where
  reflectionType : Int
  maxOrder : Int
  tanDevice : Nat
  deriving DecidableEq, Repr

/-- The global variables of the plugin. A two-element array is a pair: its first component
is element `[0]` (the active slot), its second is element `[1]` (the staged slot).
`gSourceManager` is a shared pointer: `none` when null. -/
structure Globals where
  gContext : IPLContext
  gHRTF : IPLHRTF × IPLHRTF
  gSimulationSettings : IPLSimulationSettings
  gReverbSource : IPLSource × IPLSource
  gReflectionMixer : IPLReflectionMixer × IPLReflectionMixer
  gNewHRTFWritten : Bool
  gIsSimulationSettingsValid : Bool
  gNewReverbSourceWritten : Bool
  gNewReflectionMixerWritten : Bool
  gSourceManager : Option SourceManager

/-- The globals as initialised at load time: null pointers, false flags, zero-initialised
settings. -/
def Globals.initial : Globals :=
  { gContext := nullptr
    gHRTF := (nullptr, nullptr)
    gSimulationSettings := { reflectionType := 0, maxOrder := 0, tanDevice := nullptr }
    gReverbSource := (nullptr, nullptr)
    gReflectionMixer := (nullptr, nullptr)
    gNewHRTFWritten := false
    gIsSimulationSettingsValid := false
    gNewReverbSourceWritten := false
    gNewReflectionMixerWritten := false
    gSourceManager := none }

/-- The condition of `assert(gContext == nullptr)` in `iplFMODInitialize`. -/
def iplFMODInitializeAssert (g : Globals) : Bool := decide (g.gContext = nullptr)

/-- The API function `iplFMODInitialize`. -/
def iplFMODInitialize (g : Globals) (context : IPLContext) : Globals :=
  { g with
    gContext := iplContextRetain context
    gSourceManager := some SourceManager.ctor }

/-- The API function `iplFMODTerminate`. -/
def iplFMODTerminate (g : Globals) : Globals :=
  { g with
    gNewReflectionMixerWritten := false
    gReflectionMixer := (iplRelease g.gReflectionMixer.1, iplRelease g.gReflectionMixer.2)
    gNewReverbSourceWritten := false
    gReverbSource := (iplRelease g.gReverbSource.1, iplRelease g.gReverbSource.2)
    gIsSimulationSettingsValid := false
    gNewHRTFWritten := false
    gHRTF := (iplRelease g.gHRTF.1, iplRelease g.gHRTF.2)
    gContext := iplRelease g.gContext
    gSourceManager := none }

/-- The API function `iplFMODSetHRTF`. -/
def iplFMODSetHRTF (g : Globals) (hrtf : IPLHRTF) : Globals :=
  if hrtf = g.gHRTF.2 then g
  else if !g.gNewHRTFWritten then
    { g with
      gHRTF := (g.gHRTF.1, iplHRTFRetain hrtf)
      gNewHRTFWritten := true }
  else g

/-- The API function `iplFMODSetSimulationSettings`. -/
def iplFMODSetSimulationSettings (g : Globals) (simulationSettings : IPLSimulationSettings) :
    Globals :=
  { g with
    gSimulationSettings := simulationSettings
    gIsSimulationSettingsValid := true }

/-- The API function `iplFMODSetReverbSource`. -/
def iplFMODSetReverbSource (g : Globals) (reverbSource : IPLSource) : Globals :=
  if reverbSource = g.gReverbSource.2 then g
  else if !g.gNewReverbSourceWritten then
    { g with
      gReverbSource := (g.gReverbSource.1, iplSourceRetain reverbSource)
      gNewReverbSourceWritten := true }
  else g

/-- The API function `iplFMODAddSource`: the returned handle and the globals afterwards. -/
def iplFMODAddSource (g : Globals) (source : IPLSource) : Int × Globals :=
  match g.gSourceManager with
  | none => (-1, g)
  | some sm => ((sm.addSource source).1, { g with gSourceManager := some (sm.addSource source).2 })

/-- The API function `iplFMODRemoveSource`. -/
def iplFMODRemoveSource (g : Globals) (handle : Int) : Globals :=
  match g.gSourceManager with
  | none => g
  | some sm => { g with gSourceManager := some (sm.removeSource handle) }

/-- The condition of `assert(handle >= 0)` inside the `addSource` that `iplFMODAddSource`
calls; true when there is no registry (no call is made). -/
def iplFMODAddSourceAssert (g : Globals) : Bool :=
  match g.gSourceManager with
  | none => true
  | some sm => sm.assertHandleNonNegative

/-- One of the two registry calls of the control API, on the globals. -/
def iplFMODRegistryCall (g : Globals) : RegistryCall → Globals
  | .addSource source => (iplFMODAddSource g source).2
  | .removeSource handle => iplFMODRemoveSource g handle

/-- The function `numChannelsForOrder`, in 32-bit arithmetic. -/
def numChannelsForOrder (order : Int) : Int :=
  wrapInt32 (wrapInt32 (order + 1) * wrapInt32 (order + 1))

/-- Engine type `IPLSpeakerLayoutType`, the values `speakerLayoutForNumChannels` assigns. -/
inductive IPLSpeakerLayoutType where
  | IPL_SPEAKERLAYOUTTYPE_MONO
  | IPL_SPEAKERLAYOUTTYPE_STEREO
  | IPL_SPEAKERLAYOUTTYPE_QUADRAPHONIC
  | IPL_SPEAKERLAYOUTTYPE_SURROUND_5_1
  | IPL_SPEAKERLAYOUTTYPE_SURROUND_7_1
  | IPL_SPEAKERLAYOUTTYPE_CUSTOM
  deriving DecidableEq, Repr

/-- Engine type `IPLSpeakerLayout`; `speakers` is a pointer. -/
structure IPLSpeakerLayout where
  type : IPLSpeakerLayoutType
  numSpeakers : Int
  speakers : Nat
  deriving DecidableEq, Repr

/-- The function `speakerLayoutForNumChannels`. -/
def speakerLayoutForNumChannels (numChannels : Int) : IPLSpeakerLayout :=
  { numSpeakers := numChannels
    speakers := nullptr
    type :=
      if numChannels = 1 then .IPL_SPEAKERLAYOUTTYPE_MONO
      else if numChannels = 2 then .IPL_SPEAKERLAYOUTTYPE_STEREO
      else if numChannels = 4 then .IPL_SPEAKERLAYOUTTYPE_QUADRAPHONIC
      else if numChannels = 6 then .IPL_SPEAKERLAYOUTTYPE_SURROUND_5_1
      else if numChannels = 8 then .IPL_SPEAKERLAYOUTTYPE_SURROUND_7_1
      else .IPL_SPEAKERLAYOUTTYPE_CUSTOM }

/-- Engine type `IPLAudioSettings`. -/
structure IPLAudioSettings where
  samplingRate : Int
  frameSize : Int
  deriving DecidableEq, Repr

/-- Engine type `IPLReflectionEffectSettings`, the fields `lazyInit` fills in. -/
structure IPLReflectionEffectSettings where
  type : Int
  numChannels : Int
  deriving DecidableEq, Repr

/-- Engine type `IPLAmbisonicsDecodeEffectSettings`. -/
structure IPLAmbisonicsDecodeEffectSettings where
  speakerLayout : IPLSpeakerLayout
  hrtf : IPLHRTF
  maxOrder : Int
  deriving DecidableEq, Repr

/-- Engine type `IPLAudioBuffer`; `data` is a pointer, null while nothing is allocated. -/
structure IPLAudioBuffer where
  numChannels : Int
  numSamples : Int
  data : Nat
  deriving DecidableEq, Repr

/-- The status `IPL_STATUS_SUCCESS` of the engine. -/
def IPL_STATUS_SUCCESS : Int := 0

/-! ## Host and engine seen from an effect -/

/-- What the host answers through `state->functions` during one callback, and the answer of
`isRunningInEditor()` (a property of the host process). `getblocksize` is an `unsigned int`;
`getlistenerattributes` is the listener pose as raw words. -/
structure Host where
  getsamplerate : Int
  getblocksize : Nat
  getlistenerattributes : List Nat
  isRunningInEditor : Bool

/-- The calls into the audio engine whose results the plugin cannot determine: each field is
the outcome of the engine function of that name as a function of the arguments passed. A
`Create` function returns its status and the value it leaves in its output parameter (the last
argument is the previous content of that parameter); `iplAudioBufferAllocate` returns the
buffer descriptor it fills in; `renderBlock` is the combined effect on the interleaved output
block of the DSP calls that end `process` (mixer apply, ambisonics decode, deinterleave, mix,
interleave). -/
structure Engine where
  iplContextCreate : IPLContext
  iplHRTFCreate : IPLContext → IPLAudioSettings → IPLHRTF
  iplReflectionMixerCreate :
    IPLContext → IPLAudioSettings → IPLReflectionEffectSettings → IPLReflectionMixer →
      Int × IPLReflectionMixer
  iplAmbisonicsDecodeEffectCreate :
    IPLContext → IPLAudioSettings → IPLAmbisonicsDecodeEffectSettings →
      IPLAmbisonicsDecodeEffect → Int × IPLAmbisonicsDecodeEffect
  iplAudioBufferAllocate : IPLContext → Int → Int → IPLAudioBuffer → IPLAudioBuffer
  renderBlock : Globals → Host → Bool → List Nat → List Nat → List Nat

/-- The function `initContextAndDefaultHRTF`: creates a context and a default HRTF, hands
them to `iplFMODInitialize` and `iplFMODSetHRTF`, and drops its own references. -/
def initContextAndDefaultHRTF (engine : Engine) (g : Globals) (audioSettings : IPLAudioSettings) :
    Globals :=
  let context := engine.iplContextCreate
  let hrtf := engine.iplHRTFCreate context audioSettings
  iplFMODSetHRTF ( iplFMODInitialize g context) hrtf

/-- Result codes of the host (`FMOD_RESULT`) that the effect returns. -/
inductive FMOD_RESULT where
  | FMOD_OK
  | FMOD_ERR_INVALID_PARAM
  | FMOD_ERR_DSP_DONTPROCESS
  | FMOD_ERR_DSP_SILENCE
  deriving DecidableEq, Repr

/-- The operation argument of `process` (`FMOD_DSP_PROCESS_OPERATION`); `OTHER` is any value
that is neither of the two named ones. -/
inductive FMOD_DSP_PROCESS_OPERATION where
  | FMOD_DSP_PROCESS_PERFORM
  | FMOD_DSP_PROCESS_QUERY
  | OTHER
  deriving DecidableEq, Repr

/-- The part of `FMOD_DSP_BUFFER_ARRAY` that `process` reads: `buffernumchannels[0]` and the
block `buffers[0]` of interleaved samples, one 32-bit word per `float` (the word `0` is the
sample `0.0f`). -/
structure FMOD_DSP_BUFFER_ARRAY where
  buffernumchannels : Int
  buffers : List Nat
  deriving DecidableEq, Repr

/-- The call `memset(out, 0, count * sizeof(float))` on a block of samples: the first `count`
words become zero. -/
def memsetFloats (count : Nat) (out : List Nat) : List Nat :=
  List.replicate (min count out.length) 0 ++ out.drop count

/-- The number of samples cleared by `memset(out, 0, numChannelsOut * frameSize *
sizeof(float))`: the product of an `int` and an `unsigned int` is an `unsigned int`, taken
modulo `2 ^ 32`; the multiplication by `sizeof(float)` is in `size_t` (64 bits) and does not
wrap. -/
def clearedSamples (numChannelsOut : Int) (frameSize : Nat) : Nat :=
  ((numChannelsOut * (frameSize : Int)) % 4294967296).toNat

/-- The HRTF adoption step of `process`: if a new HRTF was written, the active slot takes the
staged value and the flag is cleared. -/
def adoptHRTF (g : Globals) : Globals :=
  if g.gNewHRTFWritten then
    { g with
      gHRTF := (iplHRTFRetain g.gHRTF.2, g.gHRTF.2)
      gNewHRTFWritten := false }
  else g

namespace MixerReturnEffect

/-- Parameter index `BINAURAL` of `enum Params`. -/
def BINAURAL : Int := 0

/-- The number of parameters, `NUM_PARAMS` of `enum Params`. -/
def NUM_PARAMS : Int := 1

/-- The per-instance data `struct State`. -/
structure State where
  binaural : Bool
  reflectionsBuffer : IPLAudioBuffer
  inBuffer : IPLAudioBuffer
  outBuffer : IPLAudioBuffer
  reflectionMixer : IPLReflectionMixer
  ambisonicsEffect : IPLAmbisonicsDecodeEffect
  deriving DecidableEq, Repr

/-- The value-initialised `new State()`. -/
def State.new : State :=
  { binaural := false
    reflectionsBuffer := { numChannels := 0, numSamples := 0, data := nullptr }
    inBuffer := { numChannels := 0, numSamples := 0, data := nullptr }
    outBuffer := { numChannels := 0, numSamples := 0, data := nullptr }
    reflectionMixer := nullptr
    ambisonicsEffect := nullptr }

/-- Flag `INIT_NONE` of `enum InitFlags`. -/
def INIT_NONE : Nat := 0

/-- Flag `INIT_AUDIOBUFFERS` of `enum InitFlags`. -/
def INIT_AUDIOBUFFERS : Nat := 1 <<< 0

/-- Flag `INIT_REFLECTIONEFFECT` of `enum InitFlags`. -/
def INIT_REFLECTIONEFFECT : Nat := 1 <<< 1

/-- Flag `INIT_AMBISONICSEFFECT` of `enum InitFlags`. -/
def INIT_AMBISONICSEFFECT : Nat := 1 <<< 2

/-- The state `lazyInit` threads through its three blocks: the flags so far, the globals and
the effect. -/
structure InitProgress where
  initFlags : Nat
  globals : Globals
  effect : State

/-- The reflection-mixer block of `lazyInit` (`if (gIsSimulationSettingsValid) ...`). -/
def lazyInitReflectionMixer (engine : Engine) (audioSettings : IPLAudioSettings)
    (p : InitProgress) : InitProgress :=
  if p.globals.gIsSimulationSettingsValid then
    if p.effect.reflectionMixer = nullptr then
      let effectSettings : IPLReflectionEffectSettings :=
        { type := p.globals.gSimulationSettings.reflectionType
          numChannels := numChannelsForOrder p.globals.gSimulationSettings.maxOrder }
      let created := engine.iplReflectionMixerCreate p.globals.gContext audioSettings
        effectSettings p.effect.reflectionMixer
      let effect := { p.effect with reflectionMixer := created.2 }
      let globals :=
        if !p.globals.gNewReflectionMixerWritten then
          { p.globals with
            gReflectionMixer :=
              (p.globals.gReflectionMixer.1, iplReflectionMixerRetain effect.reflectionMixer)
            gNewReflectionMixerWritten := true }
        else p.globals
      { initFlags :=
          if created.1 = IPL_STATUS_SUCCESS then p.initFlags ||| INIT_REFLECTIONEFFECT
          else p.initFlags
        globals := globals
        effect := effect }
    else { p with initFlags := p.initFlags ||| INIT_REFLECTIONEFFECT }
  else p

/-- The ambisonics block of `lazyInit`
(`if (numChannelsOut > 0 && gIsSimulationSettingsValid) ...`). -/
def lazyInitAmbisonicsEffect (engine : Engine) (audioSettings : IPLAudioSettings)
    (numChannelsOut : Int) (p : InitProgress) : InitProgress :=
  if 0 < numChannelsOut ∧ p.globals.gIsSimulationSettingsValid = true then
    if p.effect.ambisonicsEffect = nullptr then
      let effectSettings : IPLAmbisonicsDecodeEffectSettings :=
        { speakerLayout := speakerLayoutForNumChannels numChannelsOut
          hrtf := p.globals.gHRTF.2
          maxOrder := p.globals.gSimulationSettings.maxOrder }
      let created := engine.iplAmbisonicsDecodeEffectCreate p.globals.gContext audioSettings
        effectSettings p.effect.ambisonicsEffect
      { initFlags :=
          if created.1 = IPL_STATUS_SUCCESS then p.initFlags ||| INIT_AMBISONICSEFFECT
          else p.initFlags
        globals := p.globals
        effect := { p.effect with ambisonicsEffect := created.2 } }
    else { p with initFlags := p.initFlags ||| INIT_AMBISONICSEFFECT }
  else p

/-- The buffer block of `lazyInit` (`if (numChannelsIn > 0 && numChannelsOut > 0) ...`). -/
def lazyInitAudioBuffers (engine : Engine) (audioSettings : IPLAudioSettings)
    (numChannelsIn numChannelsOut : Int) (p : InitProgress) : InitProgress :=
  if 0 < numChannelsIn ∧ 0 < numChannelsOut then
    let numAmbisonicChannels := numChannelsForOrder p.globals.gSimulationSettings.maxOrder
    let reflectionsBuffer :=
      if p.effect.reflectionsBuffer.data = nullptr then
        engine.iplAudioBufferAllocate p.globals.gContext numAmbisonicChannels
          audioSettings.frameSize p.effect.reflectionsBuffer
      else p.effect.reflectionsBuffer
    let inBuffer :=
      if p.effect.inBuffer.data = nullptr then
        engine.iplAudioBufferAllocate p.globals.gContext numChannelsIn audioSettings.frameSize
          p.effect.inBuffer
      else p.effect.inBuffer
    let outBuffer :=
      if p.effect.outBuffer.data = nullptr then
        engine.iplAudioBufferAllocate p.globals.gContext numChannelsOut audioSettings.frameSize
          p.effect.outBuffer
      else p.effect.outBuffer
    { initFlags := p.initFlags ||| INIT_AUDIOBUFFERS
      globals := p.globals
      effect :=
        { p.effect with
          reflectionsBuffer := reflectionsBuffer
          inBuffer := inBuffer
          outBuffer := outBuffer } }
  else p

/-- The audio settings `lazyInit` reads from the host; the block size is written into the
`int` field `frameSize` through an `unsigned int*`. -/
def hostAudioSettings (host : Host) : IPLAudioSettings :=
  { samplingRate := host.getsamplerate
    frameSize := wrapInt32 ((host.getblocksize : Int) % 4294967296) }

/-- The self-provisioning step of `lazyInit`
(`if (!gContext && isRunningInEditor()) initContextAndDefaultHRTF(audioSettings);`). -/
def lazyInitProvision (host : Host) (engine : Engine) (g : Globals) : Globals :=
  if g.gContext = nullptr ∧ host.isRunningInEditor = true then
    initContextAndDefaultHRTF engine g (hostAudioSettings host)
  else g

/-- The rest of `lazyInit`, from `if (!gContext) return initFlags;` on. -/
def lazyInitResources (host : Host) (engine : Engine) (g : Globals) (effect : State)
    (numChannelsIn numChannelsOut : Int) : InitProgress :=
  if g.gContext = nullptr then { initFlags := INIT_NONE, globals := g, effect := effect }
  else if g.gHRTF.2 = nullptr then { initFlags := INIT_NONE, globals := g, effect := effect }
  else
    lazyInitAudioBuffers engine (hostAudioSettings host) numChannelsIn numChannelsOut
      (lazyInitAmbisonicsEffect engine (hostAudioSettings host) numChannelsOut
        (lazyInitReflectionMixer engine (hostAudioSettings host)
          { initFlags := INIT_NONE, globals := g, effect := effect }))

/-- The function `lazyInit`: the returned flags, the globals and the effect afterwards. -/
def lazyInit (host : Host) (engine : Engine) (g : Globals) (effect : State)
    (numChannelsIn numChannelsOut : Int) : InitProgress :=
  lazyInitResources host engine (lazyInitProvision host engine g) effect numChannelsIn
    numChannelsOut

/-- The function `reset` on an existing effect. -/
def reset (effect : State) : State := { effect with binaural := false }

/-- The callback `create`: the result, the globals and the new effect. -/
def create (host : Host) (engine : Engine) (g : Globals) : FMOD_RESULT × Globals × State :=
  let p := lazyInit host engine g (reset State.new) 0 0
  (.FMOD_OK, p.globals, p.effect)

/-- The callback `getBool`: `value` is the content of the output variable before the call;
the result and the content of the output variable after the call. -/
def getBool (effect : State) (index : Int) (value : Int) : FMOD_RESULT × Int :=
  if index = BINAURAL then (.FMOD_OK, if effect.binaural then 1 else 0)
  else (.FMOD_ERR_INVALID_PARAM, value)

/-- The callback `setBool`: the result and the effect afterwards; an `FMOD_BOOL` converts to
`bool` as "non-zero". -/
def setBool (effect : State) (index : Int) (value : Int) : FMOD_RESULT × State :=
  if index = BINAURAL then (.FMOD_OK, { effect with binaural := decide (value ≠ 0) })
  else (.FMOD_ERR_INVALID_PARAM, effect)

/-- Everything a `process` call leaves behind. -/
structure ProcessResult where
  result : FMOD_RESULT
  globals : Globals
  effect : State
  out : List Nat

/-- Whether `process` goes on after `lazyInit`: all three flags are in the mask. -/
def allInitialized (initFlags : Nat) : Bool :=
  !(initFlags &&& INIT_AUDIOBUFFERS == 0 || initFlags &&& INIT_REFLECTIONEFFECT == 0
    || initFlags &&& INIT_AMBISONICSEFFECT == 0)

/-- The callback `process`. `inputsIdle` is an `FMOD_BOOL`. -/
def process (host : Host) (engine : Engine) (g : Globals) (effect : State) (_length : Nat)
    (inBuffers outBuffers : FMOD_DSP_BUFFER_ARRAY) (inputsIdle : Int)
    (operation : FMOD_DSP_PROCESS_OPERATION) : ProcessResult :=
  match operation with
  | .FMOD_DSP_PROCESS_QUERY =>
    if inputsIdle ≠ 0 then
      { result := .FMOD_ERR_DSP_DONTPROCESS, globals := g, effect := effect,
        out := outBuffers.buffers }
    else { result := .FMOD_OK, globals := g, effect := effect, out := outBuffers.buffers }
  | .FMOD_DSP_PROCESS_PERFORM =>
    let frameSize := host.getblocksize % 4294967296
    let numChannelsIn := inBuffers.buffernumchannels
    let numChannelsOut := outBuffers.buffernumchannels
    let out := memsetFloats (clearedSamples numChannelsOut frameSize) outBuffers.buffers
    let p := lazyInit host engine g effect numChannelsIn numChannelsOut
    if allInitialized p.initFlags then
      let g2 := adoptHRTF p.globals
      { result := .FMOD_OK, globals := g2, effect := p.effect,
        out := engine.renderBlock g2 host p.effect.binaural inBuffers.buffers out }
    else { result := .FMOD_ERR_DSP_SILENCE, globals := p.globals, effect := p.effect, out := out }
  | .OTHER => { result := .FMOD_OK, globals := g, effect := effect, out := outBuffers.buffers }

/-- One block handed to `process`: the input and output buffer arrays. -/
structure Block where
  inBuffers : FMOD_DSP_BUFFER_ARRAY
  outBuffers : FMOD_DSP_BUFFER_ARRAY
  deriving DecidableEq, Repr

/-- A run of PERFORM-mode `process` calls, one per block, nothing else touching the globals
or the effect in between: the results in order. -/
def performRun (host : Host) (engine : Engine) (g : Globals) (effect : State) :
    List Block → List ProcessResult
  | [] => []
  | b :: rest =>
    process host engine g effect 0 b.inBuffers b.outBuffers 0 .FMOD_DSP_PROCESS_PERFORM ::
      performRun host engine
        (process host engine g effect 0 b.inBuffers b.outBuffers 0
          .FMOD_DSP_PROCESS_PERFORM).globals
        (process host engine g effect 0 b.inBuffers b.outBuffers 0
          .FMOD_DSP_PROCESS_PERFORM).effect
        rest

end MixerReturnEffect

/-! ## Consistency of a registry -/

/-- The registry is consistent: the counter is non-negative, the free pool has no duplicates,
every free handle is a non-negative handle below the counter that is not registered, and
every registered handle is non-negative and below the counter. -/
def SourceManager.Consistent (sm : SourceManager) : Prop :=
  0 ≤ sm.mNextHandle ∧ sm.mFreeHandles.Nodup
    ∧ (∀ h ∈ sm.mFreeHandles, 0 ≤ h ∧ h < sm.mNextHandle ∧ sm.mSources.contains h = false)
    ∧ (∀ h : Int, sm.mSources.contains h = true → 0 ≤ h ∧ h < sm.mNextHandle)

/-! ## Notions used to state the properties -/

/-- Publishing a sequence of HRTFs with no adoption in between: `iplFMODSetHRTF` called on
each value in order. -/
def publishHRTFs (g : Globals) (values : List IPLHRTF) : Globals :=
  values.foldl iplFMODSetHRTF g

/-- No hand-off adoption happened between `g` and `g2`: the active slot of every channel is
the same and no pending flag that was set has been cleared. -/
def NoAdoption (g g2 : Globals) : Prop :=
  g2.gHRTF.1 = g.gHRTF.1 ∧ g2.gReverbSource.1 = g.gReverbSource.1
    ∧ g2.gReflectionMixer.1 = g.gReflectionMixer.1
    ∧ (g.gNewHRTFWritten = true → g2.gNewHRTFWritten = true)
    ∧ (g.gNewReverbSourceWritten = true → g2.gNewReverbSourceWritten = true)
    ∧ (g.gNewReflectionMixerWritten = true → g2.gNewReflectionMixerWritten = true)

/-- The first `count` samples of a block are zero (as far as the block reaches). -/
def SilentPrefix (count : Nat) (out : List Nat) : Prop :=
  ∀ i : Nat, i < count → i < out.length → out[i]? = some 0

/-- The freed handles not yet handed out again, most recently freed first, read off a log
(most recent call first) as the spec words it: a `removeSource(h)` adds `h` as the most recent
free handle; an `addSource` that returned `h` hands out the most recent free occurrence of
`h`, if there is one. -/
def outstandingFrees : List RegistryEvent → List Int
  | [] => []
  | .removed h :: older => h :: outstandingFrees older
  | .added h _ :: older => (outstandingFrees older).erase h

/-- The condition of the `assert(gContext == nullptr)` reached from `lazyInit`: the assertion
is in `iplFMODInitialize`, which `initContextAndDefaultHRTF` calls on the globals as `lazyInit`
found them; when `lazyInit` does not self-provision no assertion is evaluated. -/
def MixerReturnEffect.lazyInitAssert (host : Host) (g : Globals) : Bool :=
  if g.gContext = nullptr ∧ host.isRunningInEditor = true then iplFMODInitializeAssert g
  else true

/-- The test `initFlags & flag` that `process` applies to the result of `lazyInit`. -/
def MixerReturnEffect.hasFlag (initFlags flag : Nat) : Bool := initFlags &&& flag != 0

/-- When the reflection block of `lazyInit` adds `INIT_REFLECTIONEFFECT`: the settings are
valid and the mixer exists already or its creation reports success. -/
def MixerReturnEffect.reflectionLatch (engine : Engine) (audioSettings : IPLAudioSettings)
    (p : MixerReturnEffect.InitProgress) : Bool :=
  decide (p.globals.gIsSimulationSettingsValid = true
    ∧ (p.effect.reflectionMixer ≠ nullptr
      ∨ (engine.iplReflectionMixerCreate p.globals.gContext audioSettings
          { type := p.globals.gSimulationSettings.reflectionType
            numChannels := numChannelsForOrder p.globals.gSimulationSettings.maxOrder }
          p.effect.reflectionMixer).1 = IPL_STATUS_SUCCESS))

/-- When the ambisonics block of `lazyInit` adds `INIT_AMBISONICSEFFECT`: there are output
channels, the settings are valid and the effect exists already or its creation reports
success. -/
def MixerReturnEffect.ambisonicsLatch (engine : Engine) (audioSettings : IPLAudioSettings)
    (numChannelsOut : Int) (p : MixerReturnEffect.InitProgress) : Bool :=
  decide ((0 < numChannelsOut ∧ p.globals.gIsSimulationSettingsValid = true)
    ∧ (p.effect.ambisonicsEffect ≠ nullptr
      ∨ (engine.iplAmbisonicsDecodeEffectCreate p.globals.gContext audioSettings
          { speakerLayout := speakerLayoutForNumChannels numChannelsOut
            hrtf := p.globals.gHRTF.2
            maxOrder := p.globals.gSimulationSettings.maxOrder }
          p.effect.ambisonicsEffect).1 = IPL_STATUS_SUCCESS))

/-- When the buffer block of `lazyInit` adds `INIT_AUDIOBUFFERS`: both channel counts are
positive. -/
def MixerReturnEffect.buffersLatch (numChannelsIn numChannelsOut : Int) : Bool :=
  decide (0 < numChannelsIn ∧ 0 < numChannelsOut)

/-- The engine keeps its contract on creation: a `Create` call that reports
`IPL_STATUS_SUCCESS` leaves a non-null object in its output parameter. -/
def Engine.SuccessGivesObject (engine : Engine) : Prop :=
  (∀ context audioSettings effectSettings old,
      (engine.iplReflectionMixerCreate context audioSettings effectSettings old).1
          = IPL_STATUS_SUCCESS →
        (engine.iplReflectionMixerCreate context audioSettings effectSettings old).2 ≠ nullptr)
    ∧ (∀ context audioSettings effectSettings old,
      (engine.iplAmbisonicsDecodeEffectCreate context audioSettings effectSettings old).1
          = IPL_STATUS_SUCCESS →
        (engine.iplAmbisonicsDecodeEffectCreate context audioSettings effectSettings old).2
          ≠ nullptr)

/-! ## Sequences of `lazyInit` calls and control-API calls on one effect -/

/-- One `lazyInit` call: what the host and the engine answer during it, and its channel
counts. -/
structure LazyInitCall where
  host : Host
  engine : Engine
  numChannelsIn : Int
  numChannelsOut : Int

/-- A call of the control API other than `iplFMODTerminate` (and the version query):
`iplFMODInitialize`, `iplFMODSetHRTF`, `iplFMODSetSimulationSettings`,
`iplFMODSetReverbSource`, `iplFMODAddSource`, `iplFMODRemoveSource`. -/
inductive ControlCall where
  | contextInit (context : IPLContext)
  | setHRTF (hrtf : IPLHRTF)
  | setSimulationSettings (simulationSettings : IPLSimulationSettings)
  | setReverbSource (reverbSource : IPLSource)
  | addSource (source : IPLSource)
  | removeSource (handle : Int)

/-- The globals after a control-API call. -/
def ControlCall.apply (g : Globals) : ControlCall → Globals
  | .contextInit context => iplFMODInitialize g context
  | .setHRTF hrtf => iplFMODSetHRTF g hrtf
  | .setSimulationSettings simulationSettings =>
    iplFMODSetSimulationSettings g simulationSettings
  | .setReverbSource reverbSource => iplFMODSetReverbSource g reverbSource
  | .addSource source => (iplFMODAddSource g source).2
  | .removeSource handle => iplFMODRemoveSource g handle

/-- The globals together with the state of one effect instance. -/
structure EffectWorld where
  globals : Globals
  effect : MixerReturnEffect.State

/-- What a `lazyInit` call returns and leaves behind when made in a given world. -/
def LazyInitCall.result (call : LazyInitCall) (w : EffectWorld) :
    MixerReturnEffect.InitProgress :=
  MixerReturnEffect.lazyInit call.host call.engine w.globals w.effect call.numChannelsIn
    call.numChannelsOut

/-- A step in the life of an effect: a `lazyInit` call on it, or a control-API call. -/
inductive EffectStep where
  | lazyInit (call : LazyInitCall)
  | control (call : ControlCall)

/-- The world after a step. -/
def EffectStep.apply (w : EffectWorld) : EffectStep → EffectWorld
  | .lazyInit call => { globals := (call.result w).globals, effect := (call.result w).effect }
  | .control call => { globals := call.apply w.globals, effect := w.effect }

/-- The world after a sequence of steps. -/
def EffectWorld.run (w : EffectWorld) (steps : List EffectStep) : EffectWorld :=
  steps.foldl EffectStep.apply w

/-! ## The locks of the registry

Each registry method as the sequence of steps a thread executes: the construction of a
`std::lock_guard` locks its mutex, the end of the enclosing block unlocks it, and the
statements in between act on the manager and on the local variables of the call. -/

/-- The two mutexes of `SourceManager`. -/
inductive Mutex where
  | mHandleMutex
  | mSourceMutex
  deriving DecidableEq, Repr

/-- The manager and the local variables of one method call: `handle` (local of `addSource`,
parameter of the other two), and the value returned by `getSource`. -/
structure Frame where
  sm : SourceManager
  handle : Int
  returned : IPLSource

/-- One step of a method: lock a mutex, unlock it, or execute statements. -/
inductive Instr where
  | lock (m : Mutex)
  | unlock (m : Mutex)
  | exec (f : Frame → Frame)

/-- The steps of `SourceManager::addSource`. -/
def addSourceInstrs (source : IPLSource) : List Instr :=
  [ .exec (fun fr => { fr with handle := -1 }),
    .lock .mHandleMutex,
    .exec (fun fr =>
      { fr with
        handle := fr.sm.selectHandle.1
        sm :=
          { mNextHandle := fr.sm.selectHandle.2.1
            mFreeHandles := fr.sm.selectHandle.2.2
            mSources := fr.sm.mSources } }),
    .unlock .mHandleMutex,
    .lock .mSourceMutex,
    .exec (fun fr =>
      { fr with
        sm := { fr.sm with mSources := fr.sm.mSources.assign fr.handle (iplSourceRetain source) } }),
    .unlock .mSourceMutex ]

/-- The steps of `SourceManager::removeSource`. -/
def removeSourceInstrs (handle : Int) : List Instr :=
  [ .exec (fun fr => { fr with handle := handle }),
    .lock .mSourceMutex,
    .exec (fun fr =>
      { fr with
        sm :=
          { fr.sm with
            mSources :=
              if fr.sm.mSources.contains fr.handle then
                ((fr.sm.mSources.index fr.handle).2.assign fr.handle
                  (iplRelease (fr.sm.mSources.index fr.handle).1)).erase fr.handle
              else fr.sm.mSources } }),
    .unlock .mSourceMutex,
    .lock .mHandleMutex,
    .exec (fun fr =>
      { fr with sm := { fr.sm with mFreeHandles := fr.handle :: fr.sm.mFreeHandles } }),
    .unlock .mHandleMutex ]

/-- The steps of `SourceManager::getSource`. -/
def getSourceInstrs (handle : Int) : List Instr :=
  [ .exec (fun fr => { fr with handle := handle }),
    .lock .mSourceMutex,
    .exec (fun fr =>
      { fr with
        returned := (fr.sm.getSource fr.handle).1
        sm := (fr.sm.getSource fr.handle).2 }),
    .unlock .mSourceMutex ]

/-- A thread running the steps alone, from a frame: the locks are always free. -/
def Instr.runAlone : List Instr → Frame → Frame
  | [], fr => fr
  | .exec f :: rest, fr => Instr.runAlone rest (f fr)
  | .lock _ :: rest, fr => Instr.runAlone rest fr
  | .unlock _ :: rest, fr => Instr.runAlone rest fr

/-- A call of one of the three registry methods. -/
inductive MethodCall where
  | addSource (source : IPLSource)
  | removeSource (handle : Int)
  | getSource (handle : Int)
  deriving DecidableEq, Repr

/-- The steps of a method call. -/
def MethodCall.instrs : MethodCall → List Instr
  | .addSource source => addSourceInstrs source
  | .removeSource handle => removeSourceInstrs handle
  | .getSource handle => getSourceInstrs handle

/-- The steps of a thread that makes the given calls one after the other. -/
def threadProgram : List MethodCall → List Instr
  | [] => []
  | call :: rest => call.instrs ++ threadProgram rest

/-- The critical sections of a step sequence are disjoint: starting with `held` (the mutex
the thread holds, if any), the thread never locks a mutex while it holds one, unlocks only
the mutex it holds, and ends holding none. -/
def disjointSections : Option Mutex → List Instr → Bool
  | none, [] => true
  | some _, [] => false
  | held, .exec _ :: rest => disjointSections held rest
  | none, .lock m :: rest => disjointSections (some m) rest
  | some _, .lock _ :: _ => false
  | some m, .unlock m2 :: rest => decide (m = m2) && disjointSections none rest
  | none, .unlock _ :: _ => false

/-- Threads running concurrently: the owner of each mutex (a thread number, if it is locked)
and the steps each thread still has to execute. -/
structure LockState where
  owner : Mutex → Option Nat
  todo : Nat → List Instr

/-- Thread `i` executes its next step, if it can: a `lock` needs the mutex free (otherwise
the thread waits), an `unlock` is made by the owner. `none` when the thread has finished or
has to wait. -/
def LockState.step (s : LockState) (i : Nat) : Option LockState :=
  match s.todo i with
  | [] => none
  | .exec _ :: rest => some { s with todo := Function.update s.todo i rest }
  | .lock m :: rest =>
    if s.owner m = none then
      some { owner := Function.update s.owner m (some i), todo := Function.update s.todo i rest }
    else none
  | .unlock m :: rest =>
    if s.owner m = some i then
      some { owner := Function.update s.owner m none, todo := Function.update s.todo i rest }
    else none

/-- The start of a concurrent run: every mutex free, thread `i` about to make the calls
`calls i`. -/
def LockState.start (calls : Nat → List MethodCall) : LockState :=
  { owner := fun _ => none, todo := fun i => threadProgram (calls i) }

/-- The states a concurrent run can reach, under any interleaving of the threads. -/
inductive LockState.Reachable (calls : Nat → List MethodCall) : LockState → Prop where
  | start : LockState.Reachable calls (LockState.start calls)
  | next (s s2 : LockState) (i : Nat) :
      LockState.Reachable calls s → s.step i = some s2 → LockState.Reachable calls s2

/-- The lock discipline of a state: every thread either owns no mutex and the rest of its
steps has disjoint critical sections, or owns exactly one mutex and the rest of its steps
continues inside that critical section. -/
def LockState.Disciplined (s : LockState) : Prop :=
  ∀ i : Nat,
    (disjointSections none (s.todo i) = true ∧ ∀ m, s.owner m ≠ some i)
      ∨ ∃ m, disjointSections (some m) (s.todo i) = true ∧ s.owner m = some i
          ∧ ∀ m2, m2 ≠ m → s.owner m2 ≠ some i

/-! ## Concrete inputs used to instantiate the theorems -/

/-- A game host (not the editor) with 48 kHz sampling rate and blocks of 2 frames. -/
def sampleHost : Host :=
  { getsamplerate := 48000, getblocksize := 2, getlistenerattributes := [],
    isRunningInEditor := false }

/-- An engine in which every creation succeeds, returning fixed non-null pointers, and whose
rendering fills the block with the word 9. -/
def sampleEngine : Engine :=
  { iplContextCreate := 1
    iplHRTFCreate := fun _ _ => 2
    iplReflectionMixerCreate := fun _ _ _ _ => (IPL_STATUS_SUCCESS, 3)
    iplAmbisonicsDecodeEffectCreate := fun _ _ _ _ => (IPL_STATUS_SUCCESS, 4)
    iplAudioBufferAllocate := fun _ numChannels numSamples _ =>
      { numChannels := numChannels, numSamples := numSamples, data := 5 }
    renderBlock := fun _ _ _ _ out => out.map (fun _ => 9) }

/-- A stereo block of 2 frames whose output part holds stale non-zero samples. -/
def sampleBlock : MixerReturnEffect.Block :=
  { inBuffers := { buffernumchannels := 2, buffers := [1, 2, 3, 4] }
    outBuffers := { buffernumchannels := 2, buffers := [5, 6, 7, 8] } }

/-- A host whose blocks have 65536 frames. -/
def largeBlockHost : Host :=
  { getsamplerate := 48000, getblocksize := 65536, getlistenerattributes := [],
    isRunningInEditor := false }

/-- An output block of 65536 channels times 65536 frames, every sample the non-zero word 1. -/
def largeOutBuffers : FMOD_DSP_BUFFER_ARRAY :=
  { buffernumchannels := 65536, buffers := List.replicate 4294967296 1 }

/-- The globals after `iplFMODInitialize(1)`, `iplFMODSetHRTF(2)` and
`iplFMODSetSimulationSettings` (first-order ambisonics): context present, HRTF 2 staged and
pending but not adopted, settings valid. -/
def stagedGlobals : Globals :=
  iplFMODSetSimulationSettings (iplFMODSetHRTF ( iplFMODInitialize Globals.initial 1) 2)
    { reflectionType := 0, maxOrder := 1, tanDevice := nullptr }

/-- An engine whose effect creations succeed but whose `iplAudioBufferAllocate` fails (out
of memory): it returns an error status, which `lazyInit` does not read, and leaves the buffer
descriptor as it was. -/
def outOfMemoryEngine : Engine :=
  { iplContextCreate := 1
    iplHRTFCreate := fun _ _ => 2
    iplReflectionMixerCreate := fun _ _ _ _ => (IPL_STATUS_SUCCESS, 3)
    iplAmbisonicsDecodeEffectCreate := fun _ _ _ _ => (IPL_STATUS_SUCCESS, 4)
    iplAudioBufferAllocate := fun _ _ _ buffer => buffer
    renderBlock := fun _ _ _ _ out => out.map (fun _ => 9) }

/-- Two threads: thread 0 registers a source, thread 1 removes handle 0 and resolves it;
the other threads do nothing. -/
def sampleThreads : Nat → List MethodCall
  | 0 => [.addSource 7]
  | 1 => [.removeSource 0, .getSource 0]
  | _ => []

/-! # Theorems -/

/-! ## Arithmetic of `wrapInt32` -/

theorem wrapInt32_eq_self (x : Int) (hlo : -2147483648 ≤ x) (hhi : x < 2147483648) :
    wrapInt32 x = x := by
  unfold wrapInt32
  omega

theorem wrapInt32_lt (x : Int) : wrapInt32 x < 2147483648 := by
  unfold wrapInt32
  omega

theorem wrapInt32_ge (x : Int) : -2147483648 ≤ wrapInt32 x := by
  unfold wrapInt32
  omega

/-! ## The handle-to-source map -/

theorem SourceMap.index_fst (m : SourceMap) (handle : Int) :
    (m.index handle).1 = (m handle).getD nullptr := by
  unfold SourceMap.index
  cases h : m handle <;> rfl

theorem SourceMap.index_snd_of_contains (m : SourceMap) (handle : Int)
    (h : m.contains handle = true) : (m.index handle).2 = m := by
  unfold SourceMap.contains at h
  unfold SourceMap.index
  cases hm : m handle with
  | none => rw [hm] at h; cases h
  | some source => rfl

/-! ## Effect of the registry methods on the members -/

theorem SourceManager.getSource_fst (sm : SourceManager) (handle : Int) :
    (sm.getSource handle).1 = (sm.mSources handle).getD nullptr := by
  unfold SourceManager.getSource
  by_cases h : sm.mSources.contains handle = true
  · rw [if_pos h]
    exact SourceMap.index_fst _ _
  · rw [if_neg h]
    unfold SourceMap.contains at h
    cases hm : sm.mSources handle with
    | none => rfl
    | some source => rw [hm] at h; exact absurd rfl h

theorem SourceManager.getSource_snd (sm : SourceManager) (handle : Int) :
    (sm.getSource handle).2 = sm := by
  unfold SourceManager.getSource
  by_cases h : sm.mSources.contains handle = true
  · rw [if_pos h, SourceMap.index_snd_of_contains _ _ h]
  · rw [if_neg h]

theorem SourceManager.addSource_mSources (sm : SourceManager) (source : IPLSource) :
    (sm.addSource source).2.mSources
      = Function.update sm.mSources (sm.addSource source).1 (some source) := rfl

theorem SourceManager.removeSource_mSources (sm : SourceManager) (handle : Int) :
    (sm.removeSource handle).mSources = Function.update sm.mSources handle none := by
  unfold SourceManager.removeSource
  by_cases h : sm.mSources.contains handle = true
  · simp only [h, if_true, SourceMap.erase, SourceMap.assign, Function.update_idem,
      SourceMap.index_snd_of_contains _ _ h]
  · simp only [h]
    unfold SourceMap.contains at h
    cases hm : sm.mSources handle with
    | none =>
      funext k
      by_cases hk : k = handle
      · subst hk; simp [hm]
      · simp [Function.update_noteq hk]
    | some source => rw [hm] at h; exact absurd rfl h

theorem SourceManager.removeSource_mFreeHandles (sm : SourceManager) (handle : Int) :
    (sm.removeSource handle).mFreeHandles = handle :: sm.mFreeHandles := rfl

theorem SourceManager.removeSource_mNextHandle (sm : SourceManager) (handle : Int) :
    (sm.removeSource handle).mNextHandle = sm.mNextHandle := rfl

theorem SourceManager.addSource_of_free (sm : SourceManager) (source : IPLSource) (top : Int)
    (rest : List Int) (h : sm.mFreeHandles = top :: rest) :
    (sm.addSource source).1 = top ∧ (sm.addSource source).2.mFreeHandles = rest
      ∧ (sm.addSource source).2.mNextHandle = sm.mNextHandle := by
  simp [SourceManager.addSource, SourceManager.selectHandle, h]

theorem SourceManager.addSource_of_empty (sm : SourceManager) (source : IPLSource)
    (h : sm.mFreeHandles = []) :
    (sm.addSource source).1 = sm.mNextHandle ∧ (sm.addSource source).2.mFreeHandles = []
      ∧ (sm.addSource source).2.mNextHandle = wrapInt32 (sm.mNextHandle + 1) := by
  simp [SourceManager.addSource, SourceManager.selectHandle, h]

/-! ## Disciplined use keeps the registry consistent

When `removeSource` is only called on registered handles (and the counter has not run out),
the registry stays consistent and both assertions of `addSource` hold. -/

theorem SourceManager.ctor_consistent : SourceManager.ctor.Consistent := by
  refine ⟨le_refl _, List.nodup_nil, ?_, ?_⟩
  · intro h hmem; cases hmem
  · intro h hc; cases hc

theorem SourceManager.asserts_of_consistent (sm : SourceManager) (hc : sm.Consistent) :
    sm.assertHandleNonNegative = true ∧ sm.assertHandleUnused = true := by
  obtain ⟨hnn, _, hpool, hmap⟩ := hc
  unfold SourceManager.assertHandleNonNegative SourceManager.assertHandleUnused
    SourceManager.selectHandle
  cases hf : sm.mFreeHandles with
  | nil =>
    refine ⟨by simpa using hnn, ?_⟩
    cases hcont : sm.mSources.contains sm.mNextHandle with
    | false => rfl
    | true => exact absurd (hmap _ hcont).2 (lt_irrefl _)
  | cons top rest =>
    obtain ⟨h0, _, hnone⟩ := hpool top (by rw [hf]; exact List.mem_cons_self _ _)
    exact ⟨by simpa using h0, by simp [hnone]⟩

theorem SourceManager.addSource_consistent (sm : SourceManager) (source : IPLSource)
    (hc : sm.Consistent) (hroom : sm.mFreeHandles ≠ [] ∨ sm.mNextHandle < 2147483647) :
    (sm.addSource source).2.Consistent := by
  obtain ⟨hnn, hnd, hpool, hmap⟩ := hc
  cases hf : sm.mFreeHandles with
  | nil =>
    obtain ⟨hh, hfree, hnext⟩ := SourceManager.addSource_of_empty sm source hf
    have hlt : sm.mNextHandle < 2147483647 := by
      rcases hroom with hne | hlt
      · exact absurd hf hne
      · exact hlt
    rw [wrapInt32_eq_self _ (by omega) (by omega)] at hnext
    refine ⟨by rw [hnext]; omega, by rw [hfree]; exact List.nodup_nil, ?_, ?_⟩
    · intro h hmem
      rw [hfree] at hmem
      cases hmem
    · intro h hcont
      rw [hnext]
      unfold SourceMap.contains at hcont
      rw [SourceManager.addSource_mSources, hh] at hcont
      by_cases hk : h = sm.mNextHandle
      · omega
      · rw [Function.update_noteq hk] at hcont
        have := hmap h hcont
        omega
  | cons top rest =>
    obtain ⟨hh, hfree, hnext⟩ := SourceManager.addSource_of_free sm source top rest hf
    rw [hf] at hnd hpool
    obtain ⟨htop0, htoplt, _⟩ := hpool top (List.mem_cons_self _ _)
    refine ⟨by rw [hnext]; exact hnn, by rw [hfree]; exact (List.nodup_cons.1 hnd).2, ?_, ?_⟩
    · intro h hmem
      rw [hfree] at hmem
      obtain ⟨h0, hlt, hnone⟩ := hpool h (List.mem_cons_of_mem _ hmem)
      refine ⟨h0, by rw [hnext]; exact hlt, ?_⟩
      have hk : h ≠ top := fun heq => (List.nodup_cons.1 hnd).1 (heq ▸ hmem)
      unfold SourceMap.contains at hnone ⊢
      rw [SourceManager.addSource_mSources, hh, Function.update_noteq hk]
      exact hnone
    · intro h hcont
      rw [hnext]
      unfold SourceMap.contains at hcont
      rw [SourceManager.addSource_mSources, hh] at hcont
      by_cases hk : h = top
      · rw [hk]; exact ⟨htop0, htoplt⟩
      · rw [Function.update_noteq hk] at hcont
        exact hmap h hcont

theorem SourceManager.removeSource_consistent (sm : SourceManager) (handle : Int)
    (hc : sm.Consistent) (hreg : sm.mSources.contains handle = true) :
    (sm.removeSource handle).Consistent := by
  obtain ⟨hnn, hnd, hpool, hmap⟩ := hc
  have hfresh : handle ∉ sm.mFreeHandles := by
    intro hmem
    rw [(hpool handle hmem).2.2] at hreg
    cases hreg
  refine ⟨hnn, List.nodup_cons.2 ⟨hfresh, hnd⟩, ?_, ?_⟩
  · intro h hmem
    rw [SourceManager.removeSource_mFreeHandles] at hmem
    rw [SourceManager.removeSource_mNextHandle]
    unfold SourceMap.contains
    rw [SourceManager.removeSource_mSources]
    rcases List.mem_cons.1 hmem with heq | hin
    · rw [heq, Function.update_same]
      exact ⟨(hmap handle hreg).1, (hmap handle hreg).2, rfl⟩
    · obtain ⟨h0, hlt, hnone⟩ := hpool h hin
      have hk : h ≠ handle := fun heq => hfresh (heq ▸ hin)
      rw [Function.update_noteq hk]
      exact ⟨h0, hlt, hnone⟩
  · intro h hcont
    rw [SourceManager.removeSource_mNextHandle]
    unfold SourceMap.contains at hcont
    rw [SourceManager.removeSource_mSources] at hcont
    by_cases hk : h = handle
    · rw [hk, Function.update_same] at hcont
      cases hcont
    · rw [Function.update_noteq hk] at hcont
      exact hmap h hcont

/-! ## Resolution agrees with the log -/

/-- A trace is consistent when `getSource` answers every handle as the spec reads it off the
log. -/
theorem RegistryTrace.call_consistent (t : RegistryTrace) (c : RegistryCall)
    (h : ∀ handle, (t.manager.getSource handle).1 = resolveSpec t.log handle) :
    ∀ handle, ((t.call c).manager.getSource handle).1 = resolveSpec (t.call c).log handle := by
  intro handle
  have h0 := h handle
  rw [SourceManager.getSource_fst] at h0 ⊢
  cases c with
  | addSource source =>
    simp only [RegistryTrace.call, resolveSpec, SourceManager.addSource_mSources]
    by_cases hk : (t.manager.addSource source).1 = handle
    · rw [if_pos hk, ← hk, Function.update_same]
      rfl
    · rw [if_neg hk, Function.update_noteq (Ne.symm hk)]
      exact h0
  | removeSource removed =>
    simp only [RegistryTrace.call, resolveSpec, SourceManager.removeSource_mSources]
    by_cases hk : removed = handle
    · rw [if_pos hk, ← hk, Function.update_same]
      rfl
    · rw [if_neg hk, Function.update_noteq (Ne.symm hk)]
      exact h0

theorem RegistryTrace.foldl_consistent (calls : List RegistryCall) :
    ∀ t : RegistryTrace, (∀ handle, (t.manager.getSource handle).1 = resolveSpec t.log handle) →
      ∀ handle, ((calls.foldl RegistryTrace.call t).manager.getSource handle).1
        = resolveSpec (calls.foldl RegistryTrace.call t).log handle := by
  induction calls with
  | nil => intro t h; exact h
  | cons c rest ih =>
    intro t h
    rw [List.foldl_cons]
    exact ih (t.call c) (RegistryTrace.call_consistent t c h)

/-! ## Fresh handles -/

theorem SourceManager.addSources_counts_up (sources : List IPLSource) :
    ∀ sm : SourceManager, sm.mFreeHandles = [] →
      (sources ≠ [] → 0 ≤ sm.mNextHandle ∧ sm.mNextHandle + sources.length ≤ 2147483648) →
      (sm.addSources sources).1
        = (List.range sources.length).map (fun i : Nat => sm.mNextHandle + (i : Int)) := by
  induction sources with
  | nil => intro sm _ _; rfl
  | cons source rest ih =>
    intro sm hfree hbound
    obtain ⟨hnn, hle⟩ := hbound (List.cons_ne_nil _ _)
    obtain ⟨hh, hf, hn⟩ := SourceManager.addSource_of_empty sm source hfree
    rw [List.length_cons] at hle
    push_cast at hle
    have hrest := ih (sm.addSource source).2 hf (by
      intro hne
      have hpos : 0 < rest.length := List.length_pos.2 hne
      rw [hn, wrapInt32_eq_self _ (by omega) (by omega)]
      omega)
    rw [SourceManager.addSources, hrest, hh, List.length_cons, List.range_succ_eq_map,
      List.map_cons, List.map_map]
    refine congrArg₂ List.cons (by simp) ?_
    apply List.map_congr_left
    intro i hi
    have hi2 : i < rest.length := List.mem_range.1 hi
    have hpos : 0 < rest.length := by omega
    rw [hn, wrapInt32_eq_self _ (by omega) (by omega)]
    show sm.mNextHandle + 1 + (i : Int) = sm.mNextHandle + ((i + 1 : Nat) : Int)
    push_cast
    omega

theorem SourceManager.addSources_handles_lt (sources : List IPLSource) :
    ∀ sm : SourceManager, sm.mFreeHandles = [] → sm.mNextHandle < 2147483648 →
      ∀ handle ∈ (sm.addSources sources).1, handle < 2147483648 := by
  induction sources with
  | nil => intro sm _ _ handle hmem; cases hmem
  | cons source rest ih =>
    intro sm hfree hlt handle hmem
    obtain ⟨hh, hf, hn⟩ := SourceManager.addSource_of_empty sm source hfree
    rw [SourceManager.addSources] at hmem
    rcases List.mem_cons.1 hmem with hhead | htail
    · rw [hhead, hh]; exact hlt
    · exact ih (sm.addSource source).2 hf (by rw [hn]; exact wrapInt32_lt _) handle htail

/-! ## Claims on the source registry -/

/-- C1 (evaluation at the failing input): after `addSource(7)`, `removeSource(0)`,
`removeSource(0)`, `addSource(8)` on a fresh manager, handle 0 is registered (for source 8),
yet the next `addSource(9)` selects handle 0 again: the condition of
`assert(mSources.find(handle) == mSources.end())` is false and the entry of source 8 is
overwritten by source 9. -/
theorem addSource_reissues_registered_handle :
    ((SourceManager.ctor.run
        [.addSource 7, .removeSource 0, .removeSource 0, .addSource 8]).manager.getSource 0).1 = 8
    ∧ ((SourceManager.ctor.run
        [.addSource 7, .removeSource 0, .removeSource 0, .addSource 8]).manager.addSource 9).1 = 0
    ∧ (SourceManager.ctor.run
        [.addSource 7, .removeSource 0, .removeSource 0, .addSource 8]).manager.assertHandleUnused
        = false
    ∧ (((SourceManager.ctor.run
        [.addSource 7, .removeSource 0, .removeSource 0, .addSource 8]).manager.addSource 9).2.getSource
          0).1 = 9 := by
  decide

/-- C2: after every sequence of `addSource` / `removeSource` calls on a fresh manager and for
every handle, `getSource` returns the source of the most recent `addSource` call that returned
this handle if the handle was not removed since, and null in every other case; and `getSource`
leaves the registry as it was. -/
theorem getSource_resolves (calls : List RegistryCall) (handle : Int) :
    ((SourceManager.ctor.run calls).manager.getSource handle).1
        = resolveSpec (SourceManager.ctor.run calls).log handle
      ∧ ((SourceManager.ctor.run calls).manager.getSource handle).2
        = (SourceManager.ctor.run calls).manager :=
  ⟨RegistryTrace.foldl_consistent calls { manager := SourceManager.ctor, log := [] }
      (fun _ => rfl) handle,
    SourceManager.getSource_snd _ _⟩

/-- C5: in every manager state whose free-handle pool is empty (reachable or not), and for
every handle `h` (registered or not), `removeSource(h)` followed immediately by `addSource(s)`
returns `h`, and that `addSource` leaves `mNextHandle` unchanged. -/
theorem removeSource_then_addSource_reuses (sm : SourceManager) (h : Int) (s : IPLSource)
    (hfree : sm.mFreeHandles = []) :
    ((sm.removeSource h).addSource s).1 = h
      ∧ ((sm.removeSource h).addSource s).2.mNextHandle = (sm.removeSource h).mNextHandle
      ∧ ((sm.removeSource h).addSource s).2.mNextHandle = sm.mNextHandle
      ∧ ((sm.removeSource h).addSource s).2.mFreeHandles = [] := by
  have hpool : (sm.removeSource h).mFreeHandles = h :: [] := by
    rw [SourceManager.removeSource_mFreeHandles, hfree]
  obtain ⟨h1, h2, h3⟩ := SourceManager.addSource_of_free (sm.removeSource h) s h [] hpool
  exact ⟨h1, h3, h3, h2⟩

/-- Witness of C5: the manager after one registration has an empty pool and handle 0
registered; removing 0 and adding again returns 0. -/
theorem removeSource_then_addSource_reuses_witness :
    (SourceManager.ctor.addSource 7).2.mFreeHandles = []
      ∧ (SourceManager.ctor.addSource 7).2.mSources.contains 0 = true
      ∧ ((((SourceManager.ctor.addSource 7).2.removeSource 0).addSource 8).1 = 0
        ∧ (((SourceManager.ctor.addSource 7).2.removeSource 0).addSource 8).2.mNextHandle
            = ((SourceManager.ctor.addSource 7).2.removeSource 0).mNextHandle
        ∧ (((SourceManager.ctor.addSource 7).2.removeSource 0).addSource 8).2.mNextHandle
            = (SourceManager.ctor.addSource 7).2.mNextHandle
        ∧ (((SourceManager.ctor.addSource 7).2.removeSource 0).addSource 8).2.mFreeHandles = []) :=
  ⟨rfl, by decide,
    removeSource_then_addSource_reuses (SourceManager.ctor.addSource 7).2 0 8 rfl⟩

/-- C6 as stated fails: the handles are 32-bit, so it is not true that for every `n` the first
`n` registrations on a fresh manager return `0, 1, ..., n - 1` (the registration number
`2 ^ 31 + 1` cannot return `2 ^ 31`). -/
theorem addSources_counts_up_unbounded_counterexample :
    ¬ ∀ sources : List IPLSource,
        (SourceManager.ctor.addSources sources).1
          = (List.range sources.length).map Int.ofNat := by
  intro hall
  have hlt := SourceManager.addSources_handles_lt (List.replicate 2147483649 0)
    SourceManager.ctor rfl (by decide) 2147483648
  rw [hall (List.replicate 2147483649 0), List.length_replicate] at hlt
  exact absurd (hlt (List.mem_map.2 ⟨2147483648, List.mem_range.2 (by omega), rfl⟩))
    (lt_irrefl _)

/-- C6 (amended): on a freshly constructed manager, for every `n ≤ 2 ^ 31`, `n` consecutive
`addSource` calls return `0, 1, ..., n - 1` in that order; and for all sources `A`, `B`, `C`:
adding `A` returns 0, adding `B` returns 1, and after removing handle 0, adding `C` returns 0
again, with `getSource(0) = C` and `getSource(1) = B` afterwards. -/
theorem addSources_fresh_counts_up (sources : List IPLSource)
    (hn : sources.length ≤ 2147483648) (A B C : IPLSource) :
    (SourceManager.ctor.addSources sources).1 = (List.range sources.length).map Int.ofNat
      ∧ (SourceManager.ctor.addSource A).1 = 0
      ∧ ((SourceManager.ctor.addSource A).2.addSource B).1 = 1
      ∧ ((((SourceManager.ctor.addSource A).2.addSource B).2.removeSource 0).addSource C).1 = 0
      ∧ (((((SourceManager.ctor.addSource A).2.addSource B).2.removeSource 0).addSource
            C).2.getSource 0).1 = C
      ∧ (((((SourceManager.ctor.addSource A).2.addSource B).2.removeSource 0).addSource
            C).2.getSource 1).1 = B := by
  refine ⟨?_, rfl, rfl, rfl, rfl, rfl⟩
  rw [SourceManager.addSources_counts_up sources SourceManager.ctor rfl (by
    intro _
    refine ⟨le_refl _, ?_⟩
    show (0 : Int) + (sources.length : Int) ≤ 2147483648
    omega)]
  apply List.map_congr_left
  intro i _
  show (0 : Int) + (i : Int) = Int.ofNat i
  simp

/-- Witness of C6 (amended): three registrations return 0, 1, 2. -/
theorem addSources_fresh_counts_up_witness :
    (SourceManager.ctor.addSources [7, 8, 9]).1 = [0, 1, 2] := by
  have h := (addSources_fresh_counts_up [7, 8, 9] (by decide) 7 8 9).1
  simpa using h

/-- C7 as stated fails: after registering 0, 1, 2 and removing 0 then 1, the manager is
reachable, its pool is non-empty and contains 0, but `addSource` returns 1. -/
theorem addSource_smallest_free_counterexample :
    ¬ ∀ (sm : SourceManager) (source : IPLSource), sm.Reachable → sm.mFreeHandles ≠ [] →
        ∀ h ∈ sm.mFreeHandles, (sm.addSource source).1 ≤ h := by
  intro hall
  have h := hall
    (SourceManager.ctor.run
      [.addSource 7, .addSource 8, .addSource 9, .removeSource 0, .removeSource 1]).manager 5
    ⟨_, rfl⟩ (by decide) 0 (by decide)
  revert h
  decide

/-- C7 (amended): in every manager state whose free-handle pool is non-empty, `addSource`
returns the handle on top of the pool, which is the handle most recently passed to
`removeSource` and not handed out since; it pops that handle and leaves `mNextHandle`
unchanged. The returned handle is the smallest of the pool when no smaller one lies below it;
after registering 0, 1, 2 and removing 0 then 1, the next `addSource` returns 1. -/
theorem addSource_returns_top_of_pool (sm : SourceManager) (source : IPLSource) (top : Int)
    (rest : List Int) (hpool : sm.mFreeHandles = top :: rest) :
    (sm.addSource source).1 = top
      ∧ (sm.addSource source).2.mFreeHandles = rest
      ∧ (sm.addSource source).2.mNextHandle = sm.mNextHandle
      ∧ (∀ h : Int, ((sm.removeSource h).addSource source).1 = h)
      ∧ ((∀ h ∈ rest, top ≤ h) → ∀ h ∈ sm.mFreeHandles, (sm.addSource source).1 ≤ h)
      ∧ ((SourceManager.ctor.run
          [.addSource 7, .addSource 8, .addSource 9, .removeSource 0,
            .removeSource 1]).manager.addSource source).1 = 1 := by
  obtain ⟨h1, h2, h3⟩ := SourceManager.addSource_of_free sm source top rest hpool
  refine ⟨h1, h2, h3, ?_, ?_, rfl⟩
  · intro h
    exact (SourceManager.addSource_of_free (sm.removeSource h) source h sm.mFreeHandles rfl).1
  · intro hmin h hmem
    rw [hpool] at hmem
    rw [h1]
    rcases List.mem_cons.1 hmem with heq | hin
    · rw [heq]
    · exact hmin h hin

/-- Witness of C7 (amended): the pool `[1, 0]` reached by registering three sources and
removing 0 then 1. -/
theorem addSource_returns_top_of_pool_witness :
    ((SourceManager.ctor.run
        [.addSource 7, .addSource 8, .addSource 9, .removeSource 0,
          .removeSource 1]).manager.addSource 5).1 = 1 :=
  (addSource_returns_top_of_pool
    (SourceManager.ctor.run
      [.addSource 7, .addSource 8, .addSource 9, .removeSource 0, .removeSource 1]).manager
    5 1 [0] rfl).1

/-! ## Hand-off of the HRTF -/

theorem iplFMODSetHRTF_of_pending (g : Globals) (hrtf : IPLHRTF)
    (h : g.gNewHRTFWritten = true) : iplFMODSetHRTF g hrtf = g := by
  unfold iplFMODSetHRTF
  by_cases heq : hrtf = g.gHRTF.2
  · rw [if_pos heq]
  · rw [if_neg heq]
    simp [h]

theorem iplFMODSetHRTF_of_same (g : Globals) : iplFMODSetHRTF g g.gHRTF.2 = g := by
  unfold iplFMODSetHRTF
  rw [if_pos rfl]

theorem iplFMODSetHRTF_active (g : Globals) (hrtf : IPLHRTF) :
    (iplFMODSetHRTF g hrtf).gHRTF.1 = g.gHRTF.1 := by
  unfold iplFMODSetHRTF
  split
  · rfl
  · split <;> rfl

theorem iplFMODSetHRTF_first (g : Globals) (hrtf : IPLHRTF) (h : g.gNewHRTFWritten = false)
    (hne : hrtf ≠ g.gHRTF.2) :
    (iplFMODSetHRTF g hrtf).gHRTF = (g.gHRTF.1, hrtf)
      ∧ (iplFMODSetHRTF g hrtf).gNewHRTFWritten = true := by
  unfold iplFMODSetHRTF
  rw [if_neg hne]
  simp [h, iplHRTFRetain]

theorem publishHRTFs_of_pending (values : List IPLHRTF) :
    ∀ g : Globals, g.gNewHRTFWritten = true → publishHRTFs g values = g := by
  induction values with
  | nil => intro g _; rfl
  | cons v rest ih =>
    intro g h
    unfold publishHRTFs at ih ⊢
    rw [List.foldl_cons, iplFMODSetHRTF_of_pending g v h]
    exact ih g h

theorem adoptHRTF_of_pending (g : Globals) (h : g.gNewHRTFWritten = true) :
    (adoptHRTF g).gHRTF = (g.gHRTF.2, g.gHRTF.2) ∧ (adoptHRTF g).gNewHRTFWritten = false := by
  unfold adoptHRTF
  rw [if_pos h]
  exact ⟨rfl, rfl⟩

theorem adoptHRTF_of_not_pending (g : Globals) (h : g.gNewHRTFWritten = false) :
    adoptHRTF g = g := by
  unfold adoptHRTF
  simp [h]

/-! ## What `lazyInit` leaves alone -/

theorem iplFMODInitialize_frame (g : Globals) (context : IPLContext) :
    ( iplFMODInitialize g context).gHRTF = g.gHRTF
      ∧ ( iplFMODInitialize g context).gNewHRTFWritten = g.gNewHRTFWritten
      ∧ ( iplFMODInitialize g context).gReverbSource = g.gReverbSource
      ∧ ( iplFMODInitialize g context).gNewReverbSourceWritten = g.gNewReverbSourceWritten
      ∧ ( iplFMODInitialize g context).gReflectionMixer = g.gReflectionMixer
      ∧ ( iplFMODInitialize g context).gNewReflectionMixerWritten
          = g.gNewReflectionMixerWritten :=
  ⟨rfl, rfl, rfl, rfl, rfl, rfl⟩

theorem iplFMODSetHRTF_frame (g : Globals) (hrtf : IPLHRTF) :
    (iplFMODSetHRTF g hrtf).gReverbSource = g.gReverbSource
      ∧ (iplFMODSetHRTF g hrtf).gNewReverbSourceWritten = g.gNewReverbSourceWritten
      ∧ (iplFMODSetHRTF g hrtf).gReflectionMixer = g.gReflectionMixer
      ∧ (iplFMODSetHRTF g hrtf).gNewReflectionMixerWritten = g.gNewReflectionMixerWritten
      ∧ (g.gNewHRTFWritten = true → (iplFMODSetHRTF g hrtf).gNewHRTFWritten = true) := by
  unfold iplFMODSetHRTF
  split
  · exact ⟨rfl, rfl, rfl, rfl, id⟩
  · split
    · exact ⟨rfl, rfl, rfl, rfl, fun _ => rfl⟩
    · exact ⟨rfl, rfl, rfl, rfl, id⟩

theorem NoAdoption.refl (g : Globals) : NoAdoption g g :=
  ⟨rfl, rfl, rfl, id, id, id⟩

theorem NoAdoption.trans {g g2 g3 : Globals} (h12 : NoAdoption g g2) (h23 : NoAdoption g2 g3) :
    NoAdoption g g3 := by
  obtain ⟨a1, a2, a3, a4, a5, a6⟩ := h12
  obtain ⟨b1, b2, b3, b4, b5, b6⟩ := h23
  exact ⟨b1.trans a1, b2.trans a2, b3.trans a3, fun h => b4 (a4 h), fun h => b5 (a5 h),
    fun h => b6 (a6 h)⟩

theorem initContextAndDefaultHRTF_noAdoption (engine : Engine) (g : Globals)
    (audioSettings : IPLAudioSettings) :
    NoAdoption g (initContextAndDefaultHRTF engine g audioSettings) := by
  unfold initContextAndDefaultHRTF
  obtain ⟨i1, i2, i3, i4, i5, i6⟩ := iplFMODInitialize_frame g engine.iplContextCreate
  obtain ⟨s1, s2, s3, s4, s5⟩ := iplFMODSetHRTF_frame
    ( iplFMODInitialize g engine.iplContextCreate)
    (engine.iplHRTFCreate engine.iplContextCreate audioSettings)
  refine ⟨?_, ?_, ?_, ?_, ?_, ?_⟩
  · rw [iplFMODSetHRTF_active, i1]
  · rw [s1, i3]
  · rw [s3, i5]
  · intro h
    exact s5 (by rw [i2]; exact h)
  · intro h
    rw [s2, i4]; exact h
  · intro h
    rw [s4, i6]; exact h

theorem MixerReturnEffect.lazyInitReflectionMixer_noAdoption (engine : Engine)
    (audioSettings : IPLAudioSettings) (p : MixerReturnEffect.InitProgress) :
    NoAdoption p.globals
        (MixerReturnEffect.lazyInitReflectionMixer engine audioSettings p).globals
      ∧ (MixerReturnEffect.lazyInitReflectionMixer engine audioSettings p).globals.gHRTF
          = p.globals.gHRTF
      ∧ (MixerReturnEffect.lazyInitReflectionMixer engine audioSettings
          p).globals.gNewHRTFWritten = p.globals.gNewHRTFWritten := by
  unfold MixerReturnEffect.lazyInitReflectionMixer
  split
  · split
    · dsimp only
      by_cases hw : p.globals.gNewReflectionMixerWritten = true
      · rw [if_neg (by simp [hw])]
        exact ⟨NoAdoption.refl _, rfl, rfl⟩
      · rw [if_pos (by simpa using hw)]
        exact ⟨⟨rfl, rfl, rfl, id, id, fun _ => rfl⟩, rfl, rfl⟩
    · exact ⟨NoAdoption.refl _, rfl, rfl⟩
  · exact ⟨NoAdoption.refl _, rfl, rfl⟩

theorem MixerReturnEffect.lazyInitAmbisonicsEffect_globals (engine : Engine)
    (audioSettings : IPLAudioSettings) (numChannelsOut : Int)
    (p : MixerReturnEffect.InitProgress) :
    (MixerReturnEffect.lazyInitAmbisonicsEffect engine audioSettings numChannelsOut p).globals
      = p.globals := by
  unfold MixerReturnEffect.lazyInitAmbisonicsEffect
  split
  · split <;> rfl
  · rfl

theorem MixerReturnEffect.lazyInitAudioBuffers_globals (engine : Engine)
    (audioSettings : IPLAudioSettings) (numChannelsIn numChannelsOut : Int)
    (p : MixerReturnEffect.InitProgress) :
    (MixerReturnEffect.lazyInitAudioBuffers engine audioSettings numChannelsIn numChannelsOut
      p).globals = p.globals := by
  unfold MixerReturnEffect.lazyInitAudioBuffers
  split <;> rfl

theorem MixerReturnEffect.lazyInitProvision_noAdoption (host : Host) (engine : Engine)
    (g : Globals) : NoAdoption g (MixerReturnEffect.lazyInitProvision host engine g) := by
  unfold MixerReturnEffect.lazyInitProvision
  split
  · exact initContextAndDefaultHRTF_noAdoption _ _ _
  · exact NoAdoption.refl _

theorem MixerReturnEffect.lazyInitProvision_of_pending (host : Host) (engine : Engine)
    (g : Globals) (h : g.gNewHRTFWritten = true) :
    (MixerReturnEffect.lazyInitProvision host engine g).gHRTF = g.gHRTF
      ∧ (MixerReturnEffect.lazyInitProvision host engine g).gNewHRTFWritten = true := by
  unfold MixerReturnEffect.lazyInitProvision
  split
  · unfold initContextAndDefaultHRTF
    rw [iplFMODSetHRTF_of_pending _ _ (by exact h)]
    exact ⟨rfl, h⟩
  · exact ⟨rfl, h⟩

theorem MixerReturnEffect.lazyInitResources_noAdoption (host : Host) (engine : Engine)
    (g : Globals) (effect : MixerReturnEffect.State) (numChannelsIn numChannelsOut : Int) :
    NoAdoption g
        (MixerReturnEffect.lazyInitResources host engine g effect numChannelsIn
          numChannelsOut).globals
      ∧ (MixerReturnEffect.lazyInitResources host engine g effect numChannelsIn
          numChannelsOut).globals.gHRTF = g.gHRTF
      ∧ (MixerReturnEffect.lazyInitResources host engine g effect numChannelsIn
          numChannelsOut).globals.gNewHRTFWritten = g.gNewHRTFWritten := by
  unfold MixerReturnEffect.lazyInitResources
  split
  · exact ⟨NoAdoption.refl _, rfl, rfl⟩
  · split
    · exact ⟨NoAdoption.refl _, rfl, rfl⟩
    · rw [MixerReturnEffect.lazyInitAudioBuffers_globals,
        MixerReturnEffect.lazyInitAmbisonicsEffect_globals]
      exact MixerReturnEffect.lazyInitReflectionMixer_noAdoption _ _ _

theorem MixerReturnEffect.lazyInit_noAdoption (host : Host) (engine : Engine) (g : Globals)
    (effect : MixerReturnEffect.State) (numChannelsIn numChannelsOut : Int) :
    NoAdoption g
      (MixerReturnEffect.lazyInit host engine g effect numChannelsIn numChannelsOut).globals := by
  unfold MixerReturnEffect.lazyInit
  exact (MixerReturnEffect.lazyInitProvision_noAdoption host engine g).trans
    (MixerReturnEffect.lazyInitResources_noAdoption host engine _ effect numChannelsIn
      numChannelsOut).1

theorem MixerReturnEffect.lazyInit_of_pending (host : Host) (engine : Engine) (g : Globals)
    (effect : MixerReturnEffect.State) (numChannelsIn numChannelsOut : Int)
    (h : g.gNewHRTFWritten = true) :
    (MixerReturnEffect.lazyInit host engine g effect numChannelsIn numChannelsOut).globals.gHRTF
        = g.gHRTF
      ∧ (MixerReturnEffect.lazyInit host engine g effect numChannelsIn
          numChannelsOut).globals.gNewHRTFWritten = true := by
  unfold MixerReturnEffect.lazyInit
  obtain ⟨_, r2, r3⟩ := MixerReturnEffect.lazyInitResources_noAdoption host engine
    (MixerReturnEffect.lazyInitProvision host engine g) effect numChannelsIn numChannelsOut
  obtain ⟨p1, p2⟩ := MixerReturnEffect.lazyInitProvision_of_pending host engine g h
  rw [r2, r3]
  exact ⟨p1, p2⟩

theorem MixerReturnEffect.lazyInit_of_no_context (host : Host) (engine : Engine) (g : Globals)
    (effect : MixerReturnEffect.State) (numChannelsIn numChannelsOut : Int)
    (hctx : g.gContext = nullptr) (hed : host.isRunningInEditor = false) :
    MixerReturnEffect.lazyInit host engine g effect numChannelsIn numChannelsOut
      = { initFlags := MixerReturnEffect.INIT_NONE, globals := g, effect := effect } := by
  unfold MixerReturnEffect.lazyInit MixerReturnEffect.lazyInitProvision
    MixerReturnEffect.lazyInitResources
  simp [hctx, hed]

/-! ## The output block -/

theorem memsetFloats_length (count : Nat) (out : List Nat) :
    (memsetFloats count out).length = out.length := by
  unfold memsetFloats
  rw [List.length_append, List.length_replicate, List.length_drop]
  omega

theorem memsetFloats_silent (count : Nat) (out : List Nat) :
    SilentPrefix count (memsetFloats count out) := by
  intro i hi hlen
  rw [memsetFloats_length] at hlen
  unfold memsetFloats
  have hlt : i < min count out.length := by omega
  rw [List.getElem?_append_left (by rw [List.length_replicate]; exact hlt)]
  exact List.getElem?_replicate_of_lt hlt

theorem clearedSamples_of_in_range (numChannelsOut : Int) (frameSize : Nat)
    (h0 : 0 ≤ numChannelsOut) (h1 : numChannelsOut * (frameSize : Int) < 4294967296) :
    ((clearedSamples numChannelsOut frameSize : Nat) : Int) = numChannelsOut * (frameSize : Int) := by
  unfold clearedSamples
  have hnn : 0 ≤ numChannelsOut * (frameSize : Int) := Int.mul_nonneg h0 (Int.ofNat_nonneg _)
  rw [Int.emod_eq_of_lt hnn h1, Int.toNat_of_nonneg hnn]

/-! ## The two outcomes of a PERFORM call -/

theorem MixerReturnEffect.process_perform_not_ready (host : Host) (engine : Engine)
    (g : Globals) (effect : MixerReturnEffect.State) (length : Nat)
    (inBuffers outBuffers : FMOD_DSP_BUFFER_ARRAY) (inputsIdle : Int)
    (hnot : MixerReturnEffect.allInitialized
      (MixerReturnEffect.lazyInit host engine g effect inBuffers.buffernumchannels
        outBuffers.buffernumchannels).initFlags = false) :
    MixerReturnEffect.process host engine g effect length inBuffers outBuffers inputsIdle
        .FMOD_DSP_PROCESS_PERFORM
      = { result := .FMOD_ERR_DSP_SILENCE
          globals := (MixerReturnEffect.lazyInit host engine g effect
            inBuffers.buffernumchannels outBuffers.buffernumchannels).globals
          effect := (MixerReturnEffect.lazyInit host engine g effect
            inBuffers.buffernumchannels outBuffers.buffernumchannels).effect
          out := memsetFloats
            (clearedSamples outBuffers.buffernumchannels (host.getblocksize % 4294967296))
            outBuffers.buffers } := by
  unfold MixerReturnEffect.process
  simp only [hnot, Bool.false_eq_true, if_false]

theorem MixerReturnEffect.process_perform_ready (host : Host) (engine : Engine)
    (g : Globals) (effect : MixerReturnEffect.State) (length : Nat)
    (inBuffers outBuffers : FMOD_DSP_BUFFER_ARRAY) (inputsIdle : Int)
    (hall : MixerReturnEffect.allInitialized
      (MixerReturnEffect.lazyInit host engine g effect inBuffers.buffernumchannels
        outBuffers.buffernumchannels).initFlags = true) :
    (MixerReturnEffect.process host engine g effect length inBuffers outBuffers inputsIdle
        .FMOD_DSP_PROCESS_PERFORM).result = .FMOD_OK
      ∧ (MixerReturnEffect.process host engine g effect length inBuffers outBuffers inputsIdle
        .FMOD_DSP_PROCESS_PERFORM).globals
        = adoptHRTF (MixerReturnEffect.lazyInit host engine g effect
            inBuffers.buffernumchannels outBuffers.buffernumchannels).globals := by
  unfold MixerReturnEffect.process
  simp only [hall, if_true]
  exact ⟨trivial, trivial⟩

theorem MixerReturnEffect.performRun_of_no_context (host : Host) (engine : Engine)
    (g : Globals) (effect : MixerReturnEffect.State) (hctx : g.gContext = nullptr)
    (hed : host.isRunningInEditor = false) (blocks : List MixerReturnEffect.Block) :
    MixerReturnEffect.performRun host engine g effect blocks
      = blocks.map (fun b =>
          { result := .FMOD_ERR_DSP_SILENCE
            globals := g
            effect := effect
            out := memsetFloats
              (clearedSamples b.outBuffers.buffernumchannels (host.getblocksize % 4294967296))
              b.outBuffers.buffers }) := by
  induction blocks with
  | nil => rfl
  | cons b rest ih =>
    have hp := MixerReturnEffect.process_perform_not_ready host engine g effect 0 b.inBuffers
      b.outBuffers 0 (by
      rw [MixerReturnEffect.lazyInit_of_no_context _ _ _ _ _ _ hctx hed]
      show MixerReturnEffect.allInitialized MixerReturnEffect.INIT_NONE = false
      decide)
    rw [MixerReturnEffect.lazyInit_of_no_context _ _ _ _ _ _ hctx hed] at hp
    rw [MixerReturnEffect.performRun, hp, List.map_cons]
    exact congrArg _ ih

/-! ## Claims on the HRTF hand-off -/

/-- C3: starting with no HRTF publish pending, after publishing `v1, ..., vN` (`N ≥ 1`) with
no adoption in between, where `v1` differs from the staged value, the staged slot `gHRTF[1]`
holds `v1` and the pending flag is set (the active slot is still the old one); the adoption
step then makes the active slot `gHRTF[0]` equal to `v1` and clears the flag, and so does
every PERFORM-mode `process` call on that state that gets as far as the adoption (returns
`FMOD_OK`). The values `v2, ..., vN` are dropped. -/
theorem first_published_hrtf_is_adopted (g : Globals) (v1 : IPLHRTF) (rest : List IPLHRTF)
    (hidle : g.gNewHRTFWritten = false) (hne : v1 ≠ g.gHRTF.2) :
    (publishHRTFs g (v1 :: rest)).gHRTF.2 = v1
      ∧ (publishHRTFs g (v1 :: rest)).gNewHRTFWritten = true
      ∧ (publishHRTFs g (v1 :: rest)).gHRTF.1 = g.gHRTF.1
      ∧ (adoptHRTF (publishHRTFs g (v1 :: rest))).gHRTF.1 = v1
      ∧ (adoptHRTF (publishHRTFs g (v1 :: rest))).gNewHRTFWritten = false
      ∧ ∀ (host : Host) (engine : Engine) (effect : MixerReturnEffect.State) (length : Nat)
          (inBuffers outBuffers : FMOD_DSP_BUFFER_ARRAY) (inputsIdle : Int),
          (MixerReturnEffect.process host engine (publishHRTFs g (v1 :: rest)) effect length
            inBuffers outBuffers inputsIdle .FMOD_DSP_PROCESS_PERFORM).result = .FMOD_OK →
          (MixerReturnEffect.process host engine (publishHRTFs g (v1 :: rest)) effect length
            inBuffers outBuffers inputsIdle .FMOD_DSP_PROCESS_PERFORM).globals.gHRTF.1 = v1
          ∧ (MixerReturnEffect.process host engine (publishHRTFs g (v1 :: rest)) effect length
            inBuffers outBuffers inputsIdle
            .FMOD_DSP_PROCESS_PERFORM).globals.gNewHRTFWritten = false := by
  obtain ⟨hslots, hflag⟩ := iplFMODSetHRTF_first g v1 hidle hne
  have hpub : publishHRTFs g (v1 :: rest) = iplFMODSetHRTF g v1 := by
    unfold publishHRTFs
    rw [List.foldl_cons]
    exact publishHRTFs_of_pending rest _ hflag
  rw [hpub]
  obtain ⟨hadopt, hcleared⟩ := adoptHRTF_of_pending _ hflag
  refine ⟨by rw [hslots], hflag, by rw [hslots], by rw [hadopt, hslots], hcleared, ?_⟩
  intro host engine effect length inBuffers outBuffers inputsIdle hok
  by_cases hall : MixerReturnEffect.allInitialized
      (MixerReturnEffect.lazyInit host engine (iplFMODSetHRTF g v1) effect
        inBuffers.buffernumchannels outBuffers.buffernumchannels).initFlags = true
  · obtain ⟨_, hglobals⟩ := MixerReturnEffect.process_perform_ready host engine
      (iplFMODSetHRTF g v1) effect length inBuffers outBuffers inputsIdle hall
    obtain ⟨hkeep, hstill⟩ := MixerReturnEffect.lazyInit_of_pending host engine
      (iplFMODSetHRTF g v1) effect inBuffers.buffernumchannels outBuffers.buffernumchannels
      hflag
    obtain ⟨ha, hc⟩ := adoptHRTF_of_pending _ hstill
    rw [hglobals, ha, hc, hkeep, hslots]
    exact ⟨rfl, rfl⟩
  · rw [MixerReturnEffect.process_perform_not_ready host engine (iplFMODSetHRTF g v1) effect
      length inBuffers outBuffers inputsIdle (by simpa using hall)] at hok
    cases hok

/-- Witness of C3: from the initial globals (nothing staged, nothing pending) the HRTFs
5, 6, 7 are published; 5 is staged and then adopted. -/
theorem first_published_hrtf_is_adopted_witness :
    Globals.initial.gNewHRTFWritten = false ∧ (5 : IPLHRTF) ≠ Globals.initial.gHRTF.2
      ∧ (publishHRTFs Globals.initial [5, 6, 7]).gHRTF.2 = 5
      ∧ (adoptHRTF (publishHRTFs Globals.initial [5, 6, 7])).gHRTF.1 = 5 :=
  ⟨rfl, by decide,
    (first_published_hrtf_is_adopted Globals.initial 5 [6, 7] rfl (by decide)).1,
    (first_published_hrtf_is_adopted Globals.initial 5 [6, 7] rfl (by decide)).2.2.2.1⟩

/-- C4: the HRTF adoption step of `process` is idempotent: run twice with no `iplFMODSetHRTF`
in between it yields the same globals as run once; and when the pending flag is false it
changes nothing (active slot, staged slot and flag included). -/
theorem adoptHRTF_idempotent (g : Globals) :
    adoptHRTF (adoptHRTF g) = adoptHRTF g
      ∧ (g.gNewHRTFWritten = false →
          adoptHRTF g = g ∧ (adoptHRTF g).gHRTF.1 = g.gHRTF.1
            ∧ (adoptHRTF g).gHRTF.2 = g.gHRTF.2 ∧ (adoptHRTF g).gNewHRTFWritten = false) := by
  constructor
  · by_cases h : g.gNewHRTFWritten = true
    · exact adoptHRTF_of_not_pending _ (adoptHRTF_of_pending g h).2
    · have hg : adoptHRTF g = g := adoptHRTF_of_not_pending g (by simpa using h)
      rw [hg, hg]
  · intro h
    rw [adoptHRTF_of_not_pending g h]
    exact ⟨rfl, rfl, rfl, h⟩

/-- Witness of C4: with HRTF 5 staged and pending, adopting twice equals adopting once; and
once adopted (flag false) a further adoption changes nothing. -/
theorem adoptHRTF_idempotent_witness :
    adoptHRTF (adoptHRTF (iplFMODSetHRTF Globals.initial 5))
        = adoptHRTF (iplFMODSetHRTF Globals.initial 5)
      ∧ (adoptHRTF (iplFMODSetHRTF Globals.initial 5)).gNewHRTFWritten = false
      ∧ (adoptHRTF (adoptHRTF (iplFMODSetHRTF Globals.initial 5))).gHRTF = (5, 5) :=
  ⟨(adoptHRTF_idempotent (iplFMODSetHRTF Globals.initial 5)).1, rfl,
    by rw [((adoptHRTF_idempotent (adoptHRTF (iplFMODSetHRTF Globals.initial 5))).2 rfl).1]; rfl⟩

/-! ## Claims on the control API of the registry -/

theorem iplFMODAddSource_of_no_registry (g : Globals) (source : IPLSource)
    (h : g.gSourceManager = none) : iplFMODAddSource g source = (-1, g) := by
  unfold iplFMODAddSource
  rw [h]

/-- C8 (evaluation at the failing input): after `iplFMODInitialize` the registry exists;
`iplFMODRemoveSource(-1)` puts -1 into the free pool, and the next `iplFMODAddSource`
returns -1 although the registry exists: the condition of `assert(handle >= 0)` is false,
and source 7 is registered under handle -1. -/
theorem iplFMODAddSource_negative_handle_with_registry :
    (iplFMODRemoveSource ( iplFMODInitialize Globals.initial 1) (-1)).gSourceManager.isSome
        = true
      ∧ (iplFMODAddSource
          (iplFMODRemoveSource ( iplFMODInitialize Globals.initial 1) (-1)) 7).1 = -1
      ∧ iplFMODAddSourceAssert
          (iplFMODRemoveSource ( iplFMODInitialize Globals.initial 1) (-1)) = false
      ∧ ((iplFMODAddSource
          (iplFMODRemoveSource ( iplFMODInitialize Globals.initial 1) (-1))
            7).2.gSourceManager.map (fun sm => (sm.getSource (-1)).1)) = some 7 := by
  decide

/-! ## Claims on the mixer-return effect -/

/-- C9 as stated fails: the sample count of the `memset` is computed in `unsigned int`
arithmetic. With 65536 output channels and blocks of 65536 frames the count wraps to 0:
on a fresh effect without engine context the call returns `FMOD_ERR_DSP_SILENCE` but leaves
the first sample of the block (index 0, below `numChannelsOut * frameSize = 2 ^ 32`) at its
stale non-zero value. -/
theorem process_silence_count_counterexample :
    ¬ ∀ (host : Host) (engine : Engine) (g : Globals) (effect : MixerReturnEffect.State)
        (length : Nat) (inBuffers outBuffers : FMOD_DSP_BUFFER_ARRAY) (inputsIdle : Int),
        MixerReturnEffect.allInitialized
          (MixerReturnEffect.lazyInit host engine g effect inBuffers.buffernumchannels
            outBuffers.buffernumchannels).initFlags = false →
        ∀ i : Nat, (i : Int) < outBuffers.buffernumchannels * (host.getblocksize : Int) →
          i < outBuffers.buffers.length →
          (MixerReturnEffect.process host engine g effect length inBuffers outBuffers
            inputsIdle .FMOD_DSP_PROCESS_PERFORM).out[i]? = some 0 := by
  intro hall
  have hnot : MixerReturnEffect.allInitialized
      (MixerReturnEffect.lazyInit largeBlockHost sampleEngine Globals.initial
        MixerReturnEffect.State.new sampleBlock.inBuffers.buffernumchannels
        largeOutBuffers.buffernumchannels).initFlags = false := by
    rw [MixerReturnEffect.lazyInit_of_no_context _ _ _ _ _ _ rfl rfl]
    show MixerReturnEffect.allInitialized MixerReturnEffect.INIT_NONE = false
    decide
  have h := hall largeBlockHost sampleEngine Globals.initial MixerReturnEffect.State.new 65536
    sampleBlock.inBuffers largeOutBuffers 0 hnot 0 (by decide)
    (by
      show 0 < (List.replicate 4294967296 1).length
      rw [List.length_replicate]
      omega)
  rw [MixerReturnEffect.process_perform_not_ready _ _ _ _ _ _ _ _ hnot] at h
  have hcount : clearedSamples largeOutBuffers.buffernumchannels
      (largeBlockHost.getblocksize % 4294967296) = 0 := by decide
  have hout : memsetFloats 0 largeOutBuffers.buffers = largeOutBuffers.buffers := by
    unfold memsetFloats
    simp
  simp only [hcount, hout] at h
  have hstale : largeOutBuffers.buffers[0]? = some 1 :=
    List.getElem?_replicate_of_lt (by omega)
  rw [hstale] at h
  cases h

/-- C9 (amended): for every PERFORM-mode `process` call in which `lazyInit` does not report
all three flags, the call returns `FMOD_ERR_DSP_SILENCE`, the output block keeps its size, its
first `numChannelsOut * frameSize` samples are zero provided `0 ≤ numChannelsOut` and that
product is below `2 ^ 32` (in general the first `numChannelsOut * frameSize mod 2 ^ 32`
samples, the count the `memset` computes), no hand-off adoption is performed, and the globals
and the effect are as `lazyInit` left them. In particular, while no engine context exists and
the host is not the editor, every call of an arbitrarily long run of PERFORM calls returns
`FMOD_ERR_DSP_SILENCE` with a block cleared in this way and leaves the globals and the effect
as they were. -/
theorem process_silence_when_not_ready (host : Host) (engine : Engine) (g : Globals)
    (effect : MixerReturnEffect.State) (length : Nat)
    (inBuffers outBuffers : FMOD_DSP_BUFFER_ARRAY) (inputsIdle : Int)
    (hnot : MixerReturnEffect.allInitialized
      (MixerReturnEffect.lazyInit host engine g effect inBuffers.buffernumchannels
        outBuffers.buffernumchannels).initFlags = false) :
    (MixerReturnEffect.process host engine g effect length inBuffers outBuffers inputsIdle
        .FMOD_DSP_PROCESS_PERFORM).result = .FMOD_ERR_DSP_SILENCE
      ∧ (MixerReturnEffect.process host engine g effect length inBuffers outBuffers inputsIdle
        .FMOD_DSP_PROCESS_PERFORM).out.length = outBuffers.buffers.length
      ∧ SilentPrefix
          (clearedSamples outBuffers.buffernumchannels (host.getblocksize % 4294967296))
          (MixerReturnEffect.process host engine g effect length inBuffers outBuffers inputsIdle
            .FMOD_DSP_PROCESS_PERFORM).out
      ∧ (0 ≤ outBuffers.buffernumchannels →
          outBuffers.buffernumchannels * (host.getblocksize : Int) < 4294967296 →
          ∀ i : Nat, (i : Int) < outBuffers.buffernumchannels * (host.getblocksize : Int) →
            i < outBuffers.buffers.length →
            (MixerReturnEffect.process host engine g effect length inBuffers outBuffers
              inputsIdle .FMOD_DSP_PROCESS_PERFORM).out[i]? = some 0)
      ∧ NoAdoption g
          (MixerReturnEffect.process host engine g effect length inBuffers outBuffers inputsIdle
            .FMOD_DSP_PROCESS_PERFORM).globals
      ∧ (MixerReturnEffect.process host engine g effect length inBuffers outBuffers inputsIdle
          .FMOD_DSP_PROCESS_PERFORM).globals
          = (MixerReturnEffect.lazyInit host engine g effect inBuffers.buffernumchannels
              outBuffers.buffernumchannels).globals
      ∧ (MixerReturnEffect.process host engine g effect length inBuffers outBuffers inputsIdle
          .FMOD_DSP_PROCESS_PERFORM).effect
          = (MixerReturnEffect.lazyInit host engine g effect inBuffers.buffernumchannels
              outBuffers.buffernumchannels).effect
      ∧ (g.gContext = nullptr → host.isRunningInEditor = false →
          ∀ blocks : List MixerReturnEffect.Block,
            MixerReturnEffect.performRun host engine g effect blocks
              = blocks.map (fun b =>
                  { result := .FMOD_ERR_DSP_SILENCE
                    globals := g
                    effect := effect
                    out := memsetFloats
                      (clearedSamples b.outBuffers.buffernumchannels
                        (host.getblocksize % 4294967296))
                      b.outBuffers.buffers })) := by
  rw [MixerReturnEffect.process_perform_not_ready host engine g effect length inBuffers
    outBuffers inputsIdle hnot]
  refine ⟨rfl, memsetFloats_length _ _, memsetFloats_silent _ _, ?_,
    MixerReturnEffect.lazyInit_noAdoption _ _ _ _ _ _, rfl, rfl, ?_⟩
  · intro h0 h1 i hi hlen
    have hsmall : host.getblocksize % 4294967296 = host.getblocksize := by
      apply Nat.mod_eq_of_lt
      by_contra hge
      have hbig : (4294967296 : Int) ≤ (host.getblocksize : Int) := by omega
      have hpos : 1 ≤ outBuffers.buffernumchannels := by
        by_contra hz
        have hzero : outBuffers.buffernumchannels = 0 := by omega
        rw [hzero] at hi
        omega
      nlinarith
    apply memsetFloats_silent _ _ i _ (by rw [memsetFloats_length]; exact hlen)
    have hc := clearedSamples_of_in_range outBuffers.buffernumchannels host.getblocksize h0 h1
    rw [hsmall]
    omega
  · intro hctx hed blocks
    exact MixerReturnEffect.performRun_of_no_context host engine g effect hctx hed blocks

/-- Witness of C9 (amended): a freshly created effect, no engine context, a host that is not the
editor, and a stereo block of two frames holding stale samples: the call returns
`FMOD_ERR_DSP_SILENCE` and the four samples are zero. -/
theorem process_silence_when_not_ready_witness :
    MixerReturnEffect.allInitialized
        (MixerReturnEffect.lazyInit sampleHost sampleEngine Globals.initial
          MixerReturnEffect.State.new 2 2).initFlags = false
      ∧ (MixerReturnEffect.process sampleHost sampleEngine Globals.initial
          MixerReturnEffect.State.new 2 sampleBlock.inBuffers sampleBlock.outBuffers 0
          .FMOD_DSP_PROCESS_PERFORM).result = .FMOD_ERR_DSP_SILENCE
      ∧ (MixerReturnEffect.process sampleHost sampleEngine Globals.initial
          MixerReturnEffect.State.new 2 sampleBlock.inBuffers sampleBlock.outBuffers 0
          .FMOD_DSP_PROCESS_PERFORM).out = [0, 0, 0, 0] :=
  ⟨by decide,
    (process_silence_when_not_ready sampleHost sampleEngine Globals.initial
      MixerReturnEffect.State.new 2 sampleBlock.inBuffers sampleBlock.outBuffers 0
      (by decide)).1,
    by decide⟩

/-- C10: for every effect state and every index other than `BINAURAL` (negative indices and
`NUM_PARAMS` included), `setBool` and `getBool` return `FMOD_ERR_INVALID_PARAM`, the effect
state is unchanged and `getBool` leaves its output variable as it was; for index `BINAURAL`
both return `FMOD_OK`. -/
theorem invalid_param_index_rejected (effect : MixerReturnEffect.State) (index value : Int)
    (hindex : index ≠ MixerReturnEffect.BINAURAL) :
    MixerReturnEffect.setBool effect index value = (.FMOD_ERR_INVALID_PARAM, effect)
      ∧ MixerReturnEffect.getBool effect index value = (.FMOD_ERR_INVALID_PARAM, value)
      ∧ (MixerReturnEffect.setBool effect MixerReturnEffect.BINAURAL value).1 = .FMOD_OK
      ∧ (MixerReturnEffect.getBool effect MixerReturnEffect.BINAURAL value).1 = .FMOD_OK := by
  unfold MixerReturnEffect.setBool MixerReturnEffect.getBool
  rw [if_neg hindex, if_neg hindex, if_pos rfl, if_pos rfl]
  exact ⟨rfl, rfl, rfl, rfl⟩

/-- Witness of C10: the indices `NUM_PARAMS` and -1 on a fresh effect. -/
theorem invalid_param_index_rejected_witness :
    MixerReturnEffect.NUM_PARAMS ≠ MixerReturnEffect.BINAURAL
      ∧ MixerReturnEffect.setBool MixerReturnEffect.State.new MixerReturnEffect.NUM_PARAMS 1
          = (.FMOD_ERR_INVALID_PARAM, MixerReturnEffect.State.new)
      ∧ MixerReturnEffect.getBool MixerReturnEffect.State.new (-1) 42
          = (.FMOD_ERR_INVALID_PARAM, 42) :=
  ⟨by decide,
    (invalid_param_index_rejected MixerReturnEffect.State.new MixerReturnEffect.NUM_PARAMS 1
      (by decide)).1,
    (invalid_param_index_rejected MixerReturnEffect.State.new (-1) 42 (by decide)).2.1⟩

/-! ## Query mode -/

/-- C11: for every `process` call with operation `FMOD_DSP_PROCESS_QUERY`, the result is
`FMOD_ERR_DSP_DONTPROCESS` exactly when `inputsIdle` is true (non-zero) and `FMOD_OK`
otherwise, and the output block, the effect state and the globals are as before the call (no
lazy initialisation, no adoption). -/
theorem process_query (host : Host) (engine : Engine) (g : Globals)
    (effect : MixerReturnEffect.State) (length : Nat)
    (inBuffers outBuffers : FMOD_DSP_BUFFER_ARRAY) (inputsIdle : Int) :
    ((MixerReturnEffect.process host engine g effect length inBuffers outBuffers inputsIdle
        .FMOD_DSP_PROCESS_QUERY).result = .FMOD_ERR_DSP_DONTPROCESS ↔ inputsIdle ≠ 0)
      ∧ ((MixerReturnEffect.process host engine g effect length inBuffers outBuffers inputsIdle
        .FMOD_DSP_PROCESS_QUERY).result = .FMOD_OK ↔ inputsIdle = 0)
      ∧ (MixerReturnEffect.process host engine g effect length inBuffers outBuffers inputsIdle
        .FMOD_DSP_PROCESS_QUERY).out = outBuffers.buffers
      ∧ (MixerReturnEffect.process host engine g effect length inBuffers outBuffers inputsIdle
        .FMOD_DSP_PROCESS_QUERY).effect = effect
      ∧ (MixerReturnEffect.process host engine g effect length inBuffers outBuffers inputsIdle
        .FMOD_DSP_PROCESS_QUERY).globals = g := by
  unfold MixerReturnEffect.process
  by_cases hidle : inputsIdle = 0
  · simp [hidle]
  · simp [hidle]

/-- Witness of C11: a query with idle inputs on the initial globals is answered
`FMOD_ERR_DSP_DONTPROCESS`, a query with active inputs `FMOD_OK`, and the stale block is not
touched. -/
theorem process_query_witness :
    (MixerReturnEffect.process sampleHost sampleEngine Globals.initial
        MixerReturnEffect.State.new 2 sampleBlock.inBuffers sampleBlock.outBuffers 1
        .FMOD_DSP_PROCESS_QUERY).result = .FMOD_ERR_DSP_DONTPROCESS
      ∧ (MixerReturnEffect.process sampleHost sampleEngine Globals.initial
        MixerReturnEffect.State.new 2 sampleBlock.inBuffers sampleBlock.outBuffers 0
        .FMOD_DSP_PROCESS_QUERY).result = .FMOD_OK
      ∧ (MixerReturnEffect.process sampleHost sampleEngine Globals.initial
        MixerReturnEffect.State.new 2 sampleBlock.inBuffers sampleBlock.outBuffers 1
        .FMOD_DSP_PROCESS_QUERY).out = [5, 6, 7, 8] :=
  ⟨(process_query sampleHost sampleEngine Globals.initial MixerReturnEffect.State.new 2
      sampleBlock.inBuffers sampleBlock.outBuffers 1).1.2 (by decide),
    (process_query sampleHost sampleEngine Globals.initial MixerReturnEffect.State.new 2
      sampleBlock.inBuffers sampleBlock.outBuffers 0).2.1.2 rfl,
    (process_query sampleHost sampleEngine Globals.initial MixerReturnEffect.State.new 2
      sampleBlock.inBuffers sampleBlock.outBuffers 1).2.2.1⟩

/-! ## Unregistration and the order of reuse -/

theorem RegistryTrace.call_pool (t : RegistryTrace) (c : RegistryCall)
    (h : t.manager.mFreeHandles = outstandingFrees t.log) :
    (t.call c).manager.mFreeHandles = outstandingFrees (t.call c).log := by
  cases c with
  | addSource source =>
    simp only [RegistryTrace.call, outstandingFrees]
    cases hf : t.manager.mFreeHandles with
    | nil =>
      obtain ⟨_, hfree, _⟩ := SourceManager.addSource_of_empty t.manager source hf
      rw [hfree, ← h, hf]
      rfl
    | cons top rest =>
      obtain ⟨hh, hfree, _⟩ := SourceManager.addSource_of_free t.manager source top rest hf
      rw [hfree, hh, ← h, hf, List.erase_cons_head]
  | removeSource handle =>
    simp only [RegistryTrace.call, outstandingFrees, SourceManager.removeSource_mFreeHandles]
    rw [h]

theorem RegistryTrace.foldl_pool (calls : List RegistryCall) :
    ∀ t : RegistryTrace, t.manager.mFreeHandles = outstandingFrees t.log →
      (calls.foldl RegistryTrace.call t).manager.mFreeHandles
        = outstandingFrees (calls.foldl RegistryTrace.call t).log := by
  induction calls with
  | nil => intro t h; exact h
  | cons c rest ih =>
    intro t h
    rw [List.foldl_cons]
    exact ih (t.call c) (RegistryTrace.call_pool t c h)

/-- C15: for every manager state and every handle `h`, registered or not, after
`removeSource(h)` the map has no entry for `h` (so `getSource(h)` is null), the mapping of
every other handle is unchanged, `mNextHandle` is unchanged, and the free-handle pool is the
previous pool with `h` added once more. -/
theorem removeSource_effect (sm : SourceManager) (h : Int) :
    (sm.removeSource h).mSources.contains h = false
      ∧ ((sm.removeSource h).getSource h).1 = nullptr
      ∧ (∀ k : Int, k ≠ h → (sm.removeSource h).mSources k = sm.mSources k)
      ∧ (sm.removeSource h).mNextHandle = sm.mNextHandle
      ∧ (sm.removeSource h).mFreeHandles = h :: sm.mFreeHandles
      ∧ (∀ k : Int, (sm.removeSource h).mFreeHandles.count k
          = sm.mFreeHandles.count k + (if k = h then 1 else 0)) := by
  refine ⟨?_, ?_, ?_, rfl, rfl, ?_⟩
  · unfold SourceMap.contains
    rw [SourceManager.removeSource_mSources, Function.update_same]
    rfl
  · rw [SourceManager.getSource_fst, SourceManager.removeSource_mSources, Function.update_same]
    rfl
  · intro k hk
    rw [SourceManager.removeSource_mSources, Function.update_noteq hk]
  · intro k
    rw [SourceManager.removeSource_mFreeHandles, List.count_cons]
    by_cases hk : k = h
    · simp [hk]
    · have hk2 : ¬ h = k := fun e => hk e.symm
      simp [hk, hk2]

/-- Witness of C15: with handles 0 and 1 registered, removing the registered handle 0 and
removing the absent handle 5 both leave handle 1 resolved to its source and push the handle
onto the pool. -/
theorem removeSource_effect_witness :
    (((SourceManager.ctor.addSources [7, 8]).2.removeSource 0).getSource 0).1 = nullptr
      ∧ ((SourceManager.ctor.addSources [7, 8]).2.removeSource 0).mSources 1 = some 8
      ∧ ((SourceManager.ctor.addSources [7, 8]).2.removeSource 5).mSources 1 = some 8
      ∧ ((SourceManager.ctor.addSources [7, 8]).2.removeSource 5).mFreeHandles = [5] :=
  ⟨(removeSource_effect (SourceManager.ctor.addSources [7, 8]).2 0).2.1,
    ((removeSource_effect (SourceManager.ctor.addSources [7, 8]).2 0).2.2.1 1
      (by decide)).trans rfl,
    ((removeSource_effect (SourceManager.ctor.addSources [7, 8]).2 5).2.2.1 1
      (by decide)).trans rfl,
    (removeSource_effect (SourceManager.ctor.addSources [7, 8]).2 5).2.2.2.2.1⟩

/-- C16: after every sequence of calls on a fresh manager, the free-handle pool is the list
of freed handles not yet handed out again, most recently freed first; so whenever the pool is
non-empty, `addSource` returns the handle passed to the most recent `removeSource` call that
has not been handed out again, and it does not advance `mNextHandle`. -/
theorem addSource_reuses_most_recently_freed (calls : List RegistryCall) (source : IPLSource)
    (hpool : (SourceManager.ctor.run calls).manager.mFreeHandles ≠ []) :
    (SourceManager.ctor.run calls).manager.mFreeHandles
        = outstandingFrees (SourceManager.ctor.run calls).log
      ∧ (outstandingFrees (SourceManager.ctor.run calls).log).head?
        = some ((SourceManager.ctor.run calls).manager.addSource source).1
      ∧ ((SourceManager.ctor.run calls).manager.addSource source).2.mNextHandle
        = (SourceManager.ctor.run calls).manager.mNextHandle
      ∧ ((SourceManager.ctor.run calls).manager.addSource source).2.mFreeHandles
        = (outstandingFrees (SourceManager.ctor.run calls).log).tail := by
  have hlog := RegistryTrace.foldl_pool calls { manager := SourceManager.ctor, log := [] } rfl
  change (SourceManager.ctor.run calls).manager.mFreeHandles
    = outstandingFrees (SourceManager.ctor.run calls).log at hlog
  cases hf : (SourceManager.ctor.run calls).manager.mFreeHandles with
  | nil => exact absurd hf hpool
  | cons top rest =>
    obtain ⟨hh, hfree, hnext⟩ := SourceManager.addSource_of_free _ source top rest hf
    rw [← hlog, hf, hh, hfree]
    exact ⟨rfl, rfl, hnext, rfl⟩

/-- Witness of C16: registering three sources and removing 1, then 0, then 2 leaves the pool
`[2, 0, 1]`; the next `addSource` returns 2, the most recently freed handle. -/
theorem addSource_reuses_most_recently_freed_witness :
    (SourceManager.ctor.run
        [.addSource 7, .addSource 8, .addSource 9, .removeSource 1, .removeSource 0,
          .removeSource 2]).manager.mFreeHandles ≠ []
      ∧ ((SourceManager.ctor.run
        [.addSource 7, .addSource 8, .addSource 9, .removeSource 1, .removeSource 0,
          .removeSource 2]).manager.addSource 5).1 = 2 := by
  have h := (addSource_reuses_most_recently_freed
    [.addSource 7, .addSource 8, .addSource 9, .removeSource 1, .removeSource 0,
      .removeSource 2] 5 (by decide)).2.1
  exact ⟨by decide, (Option.some.inj h).symm⟩

/-! ## Self-provisioning, termination, simulation settings -/

/-- C17: every `lazyInit` call made while `gContext` is null and the host is not the editor
returns `INIT_NONE` and leaves the globals (context, both HRTF slots, all flags, the source
registry; every global in fact) and the effect state unchanged; and whenever `lazyInit` does
call `iplFMODInitialize`, `gContext` is null at that point, so the assertion
`gContext == nullptr` holds on that path (for every host and every global state). -/
theorem lazyInit_no_self_provisioning (host : Host) (engine : Engine) (g : Globals)
    (effect : MixerReturnEffect.State) (numChannelsIn numChannelsOut : Int)
    (hctx : g.gContext = nullptr) (hed : host.isRunningInEditor = false) :
    (MixerReturnEffect.lazyInit host engine g effect numChannelsIn numChannelsOut).initFlags
        = MixerReturnEffect.INIT_NONE
      ∧ (MixerReturnEffect.lazyInit host engine g effect numChannelsIn numChannelsOut).globals
        = g
      ∧ (MixerReturnEffect.lazyInit host engine g effect numChannelsIn numChannelsOut).effect
        = effect
      ∧ (∀ (host2 : Host) (g2 : Globals), MixerReturnEffect.lazyInitAssert host2 g2 = true) := by
  rw [MixerReturnEffect.lazyInit_of_no_context host engine g effect numChannelsIn
    numChannelsOut hctx hed]
  refine ⟨rfl, rfl, rfl, ?_⟩
  intro host2 g2
  unfold MixerReturnEffect.lazyInitAssert iplFMODInitializeAssert
  by_cases h : g2.gContext = nullptr ∧ host2.isRunningInEditor = true
  · rw [if_pos h]
    exact decide_eq_true h.1
  · rw [if_neg h]

/-- Witness of C17: the initial globals (no context) and a host that is not the editor, with
a stereo block. -/
theorem lazyInit_no_self_provisioning_witness :
    Globals.initial.gContext = nullptr ∧ sampleHost.isRunningInEditor = false
      ∧ (MixerReturnEffect.lazyInit sampleHost sampleEngine Globals.initial
          MixerReturnEffect.State.new 2 2).initFlags = MixerReturnEffect.INIT_NONE
      ∧ (MixerReturnEffect.lazyInit sampleHost sampleEngine Globals.initial
          MixerReturnEffect.State.new 2 2).effect = MixerReturnEffect.State.new :=
  ⟨rfl, rfl,
    (lazyInit_no_self_provisioning sampleHost sampleEngine Globals.initial
      MixerReturnEffect.State.new 2 2 rfl rfl).1,
    (lazyInit_no_self_provisioning sampleHost sampleEngine Globals.initial
      MixerReturnEffect.State.new 2 2 rfl rfl).2.2.1⟩

/-- C19: for every global state (reachable or not), after `iplFMODTerminate` the context is
null, both slots of the HRTF, reverb-source and reflection-mixer channels are null, all four
flags are false and the registry is absent; consequently `iplFMODAddSource` then returns -1
(and changes nothing), a following `iplFMODInitialize` finds its assertion
`gContext == nullptr` true, and the registry it constructs issues handles from 0 again (0,
then 1). -/
theorem iplFMODTerminate_pristine (g : Globals) (context : IPLContext) (s1 s2 : IPLSource) :
    (iplFMODTerminate g).gContext = nullptr
      ∧ (iplFMODTerminate g).gHRTF = (nullptr, nullptr)
      ∧ (iplFMODTerminate g).gReverbSource = (nullptr, nullptr)
      ∧ (iplFMODTerminate g).gReflectionMixer = (nullptr, nullptr)
      ∧ (iplFMODTerminate g).gNewHRTFWritten = false
      ∧ (iplFMODTerminate g).gIsSimulationSettingsValid = false
      ∧ (iplFMODTerminate g).gNewReverbSourceWritten = false
      ∧ (iplFMODTerminate g).gNewReflectionMixerWritten = false
      ∧ (iplFMODTerminate g).gSourceManager.isNone = true
      ∧ iplFMODAddSource (iplFMODTerminate g) s1 = (-1, iplFMODTerminate g)
      ∧ iplFMODInitializeAssert (iplFMODTerminate g) = true
      ∧ (iplFMODAddSource ( iplFMODInitialize (iplFMODTerminate g) context) s1).1 = 0
      ∧ (iplFMODAddSource
          (iplFMODAddSource ( iplFMODInitialize (iplFMODTerminate g) context) s1).2 s2).1 = 1 :=
  ⟨rfl, rfl, rfl, rfl, rfl, rfl, rfl, rfl, rfl, rfl, rfl, rfl, rfl⟩

/-- C20: for every global state and every settings value `s`, `iplFMODSetSimulationSettings`
leaves `gSimulationSettings = s` and `gIsSimulationSettingsValid = true` whatever the previous
value and flag were (a second publish replaces the first, it is never dropped), and it changes
no HRTF, reverb-source or reflection-mixer slot or flag, not the context and not the
registry. -/
theorem iplFMODSetSimulationSettings_last_write_wins (g : Globals)
    (s s2 : IPLSimulationSettings) :
    (iplFMODSetSimulationSettings g s).gSimulationSettings = s
      ∧ (iplFMODSetSimulationSettings g s).gIsSimulationSettingsValid = true
      ∧ (iplFMODSetSimulationSettings (iplFMODSetSimulationSettings g s) s2).gSimulationSettings
          = s2
      ∧ (iplFMODSetSimulationSettings g s).gHRTF = g.gHRTF
      ∧ (iplFMODSetSimulationSettings g s).gNewHRTFWritten = g.gNewHRTFWritten
      ∧ (iplFMODSetSimulationSettings g s).gReverbSource = g.gReverbSource
      ∧ (iplFMODSetSimulationSettings g s).gNewReverbSourceWritten = g.gNewReverbSourceWritten
      ∧ (iplFMODSetSimulationSettings g s).gReflectionMixer = g.gReflectionMixer
      ∧ (iplFMODSetSimulationSettings g s).gNewReflectionMixerWritten
          = g.gNewReflectionMixerWritten
      ∧ (iplFMODSetSimulationSettings g s).gContext = g.gContext
      ∧ (iplFMODSetSimulationSettings g s).gSourceManager = g.gSourceManager :=
  ⟨rfl, rfl, rfl, rfl, rfl, rfl, rfl, rfl, rfl, rfl, rfl⟩

/-! ## The three blocks of `lazyInit` -/

theorem MixerReturnEffect.hasFlag_of_latches (r a b : Bool) :
    MixerReturnEffect.hasFlag
        (((MixerReturnEffect.INIT_NONE
              ||| (if r = true then MixerReturnEffect.INIT_REFLECTIONEFFECT else 0))
            ||| (if a = true then MixerReturnEffect.INIT_AMBISONICSEFFECT else 0))
          ||| (if b = true then MixerReturnEffect.INIT_AUDIOBUFFERS else 0))
        MixerReturnEffect.INIT_REFLECTIONEFFECT = r
      ∧ MixerReturnEffect.hasFlag
        (((MixerReturnEffect.INIT_NONE
              ||| (if r = true then MixerReturnEffect.INIT_REFLECTIONEFFECT else 0))
            ||| (if a = true then MixerReturnEffect.INIT_AMBISONICSEFFECT else 0))
          ||| (if b = true then MixerReturnEffect.INIT_AUDIOBUFFERS else 0))
        MixerReturnEffect.INIT_AMBISONICSEFFECT = a
      ∧ MixerReturnEffect.hasFlag
        (((MixerReturnEffect.INIT_NONE
              ||| (if r = true then MixerReturnEffect.INIT_REFLECTIONEFFECT else 0))
            ||| (if a = true then MixerReturnEffect.INIT_AMBISONICSEFFECT else 0))
          ||| (if b = true then MixerReturnEffect.INIT_AUDIOBUFFERS else 0))
        MixerReturnEffect.INIT_AUDIOBUFFERS = b := by
  cases r <;> cases a <;> cases b <;> decide

theorem MixerReturnEffect.lazyInitReflectionMixer_initFlags (engine : Engine)
    (audioSettings : IPLAudioSettings) (p : MixerReturnEffect.InitProgress) :
    (MixerReturnEffect.lazyInitReflectionMixer engine audioSettings p).initFlags
      = p.initFlags
        ||| (if MixerReturnEffect.reflectionLatch engine audioSettings p = true then
              MixerReturnEffect.INIT_REFLECTIONEFFECT else 0) := by
  unfold MixerReturnEffect.lazyInitReflectionMixer MixerReturnEffect.reflectionLatch
  by_cases hv : p.globals.gIsSimulationSettingsValid = true
  · by_cases hm : p.effect.reflectionMixer = nullptr
    · by_cases hs : (engine.iplReflectionMixerCreate p.globals.gContext audioSettings
          { type := p.globals.gSimulationSettings.reflectionType
            numChannels := numChannelsForOrder p.globals.gSimulationSettings.maxOrder }
          p.effect.reflectionMixer).1 = IPL_STATUS_SUCCESS
      · rw [hm] at hs
        simp [hv, hm, hs]
      · rw [hm] at hs
        simp [hv, hm, hs]
    · simp [hv, hm]
  · simp [hv]

theorem MixerReturnEffect.lazyInitAmbisonicsEffect_initFlags (engine : Engine)
    (audioSettings : IPLAudioSettings) (numChannelsOut : Int)
    (p : MixerReturnEffect.InitProgress) :
    (MixerReturnEffect.lazyInitAmbisonicsEffect engine audioSettings numChannelsOut p).initFlags
      = p.initFlags
        ||| (if MixerReturnEffect.ambisonicsLatch engine audioSettings numChannelsOut p = true
              then MixerReturnEffect.INIT_AMBISONICSEFFECT else 0) := by
  unfold MixerReturnEffect.lazyInitAmbisonicsEffect MixerReturnEffect.ambisonicsLatch
  by_cases hv : 0 < numChannelsOut ∧ p.globals.gIsSimulationSettingsValid = true
  · by_cases hm : p.effect.ambisonicsEffect = nullptr
    · by_cases hs : (engine.iplAmbisonicsDecodeEffectCreate p.globals.gContext audioSettings
          { speakerLayout := speakerLayoutForNumChannels numChannelsOut
            hrtf := p.globals.gHRTF.2
            maxOrder := p.globals.gSimulationSettings.maxOrder }
          p.effect.ambisonicsEffect).1 = IPL_STATUS_SUCCESS
      · rw [hm] at hs
        simp [hv, hm, hs]
      · rw [hm] at hs
        simp [hv, hm, hs]
    · simp [hv, hm]
  · simp [hv]

theorem MixerReturnEffect.lazyInitAudioBuffers_initFlags (engine : Engine)
    (audioSettings : IPLAudioSettings) (numChannelsIn numChannelsOut : Int)
    (p : MixerReturnEffect.InitProgress) :
    (MixerReturnEffect.lazyInitAudioBuffers engine audioSettings numChannelsIn numChannelsOut
        p).initFlags
      = p.initFlags
        ||| (if MixerReturnEffect.buffersLatch numChannelsIn numChannelsOut = true then
              MixerReturnEffect.INIT_AUDIOBUFFERS else 0) := by
  unfold MixerReturnEffect.lazyInitAudioBuffers MixerReturnEffect.buffersLatch
  by_cases hv : 0 < numChannelsIn ∧ 0 < numChannelsOut
  · simp [hv]
  · simp [hv]

theorem MixerReturnEffect.lazyInitReflectionMixer_frame (engine : Engine)
    (audioSettings : IPLAudioSettings) (p : MixerReturnEffect.InitProgress) :
    (MixerReturnEffect.lazyInitReflectionMixer engine audioSettings p).globals.gContext
        = p.globals.gContext
      ∧ (MixerReturnEffect.lazyInitReflectionMixer engine audioSettings
          p).globals.gIsSimulationSettingsValid = p.globals.gIsSimulationSettingsValid
      ∧ (MixerReturnEffect.lazyInitReflectionMixer engine audioSettings
          p).globals.gSimulationSettings = p.globals.gSimulationSettings
      ∧ (MixerReturnEffect.lazyInitReflectionMixer engine audioSettings
          p).effect.ambisonicsEffect = p.effect.ambisonicsEffect
      ∧ (MixerReturnEffect.lazyInitReflectionMixer engine audioSettings
          p).effect.reflectionsBuffer = p.effect.reflectionsBuffer
      ∧ (MixerReturnEffect.lazyInitReflectionMixer engine audioSettings p).effect.inBuffer
          = p.effect.inBuffer
      ∧ (MixerReturnEffect.lazyInitReflectionMixer engine audioSettings p).effect.outBuffer
          = p.effect.outBuffer
      ∧ (MixerReturnEffect.lazyInitReflectionMixer engine audioSettings p).effect.binaural
          = p.effect.binaural := by
  unfold MixerReturnEffect.lazyInitReflectionMixer
  split
  · split
    · dsimp only
      split <;> exact ⟨rfl, rfl, rfl, rfl, rfl, rfl, rfl, rfl⟩
    · exact ⟨rfl, rfl, rfl, rfl, rfl, rfl, rfl, rfl⟩
  · exact ⟨rfl, rfl, rfl, rfl, rfl, rfl, rfl, rfl⟩

theorem MixerReturnEffect.lazyInitReflectionMixer_mixer (engine : Engine)
    (audioSettings : IPLAudioSettings) (p : MixerReturnEffect.InitProgress) :
    (p.effect.reflectionMixer ≠ nullptr →
        (MixerReturnEffect.lazyInitReflectionMixer engine audioSettings p).effect
          = p.effect)
      ∧ (engine.SuccessGivesObject →
          MixerReturnEffect.reflectionLatch engine audioSettings p = true →
          (MixerReturnEffect.lazyInitReflectionMixer engine audioSettings
            p).effect.reflectionMixer ≠ nullptr) := by
  unfold MixerReturnEffect.lazyInitReflectionMixer MixerReturnEffect.reflectionLatch
  constructor
  · intro hm
    split <;> rfl
  · intro hcontract hlatch
    obtain ⟨hv, hor⟩ := of_decide_eq_true hlatch
    rw [if_pos hv]
    by_cases hm : p.effect.reflectionMixer = nullptr
    · rw [if_pos hm]
      rcases hor with hne | hs
      · exact absurd hm hne
      · exact hcontract.1 _ _ _ _ hs
    · rw [if_neg hm]
      exact hm

theorem MixerReturnEffect.lazyInitAmbisonicsEffect_effect (engine : Engine)
    (audioSettings : IPLAudioSettings) (numChannelsOut : Int)
    (p : MixerReturnEffect.InitProgress) :
    (p.effect.ambisonicsEffect ≠ nullptr →
        (MixerReturnEffect.lazyInitAmbisonicsEffect engine audioSettings numChannelsOut p).effect
          = p.effect)
      ∧ (engine.SuccessGivesObject →
          MixerReturnEffect.ambisonicsLatch engine audioSettings numChannelsOut p = true →
          (MixerReturnEffect.lazyInitAmbisonicsEffect engine audioSettings numChannelsOut
            p).effect.ambisonicsEffect ≠ nullptr)
      ∧ (MixerReturnEffect.lazyInitAmbisonicsEffect engine audioSettings numChannelsOut
          p).effect.reflectionMixer = p.effect.reflectionMixer
      ∧ (MixerReturnEffect.lazyInitAmbisonicsEffect engine audioSettings numChannelsOut
          p).effect.reflectionsBuffer = p.effect.reflectionsBuffer
      ∧ (MixerReturnEffect.lazyInitAmbisonicsEffect engine audioSettings numChannelsOut
          p).effect.inBuffer = p.effect.inBuffer
      ∧ (MixerReturnEffect.lazyInitAmbisonicsEffect engine audioSettings numChannelsOut
          p).effect.outBuffer = p.effect.outBuffer
      ∧ (MixerReturnEffect.lazyInitAmbisonicsEffect engine audioSettings numChannelsOut
          p).effect.binaural = p.effect.binaural := by
  unfold MixerReturnEffect.lazyInitAmbisonicsEffect MixerReturnEffect.ambisonicsLatch
  refine ⟨?_, ?_, ?_⟩
  · intro hm
    split <;> rfl
  · intro hcontract hlatch
    obtain ⟨hv, hor⟩ := of_decide_eq_true hlatch
    rw [if_pos hv]
    by_cases hm : p.effect.ambisonicsEffect = nullptr
    · rw [if_pos hm]
      rcases hor with hne | hs
      · exact absurd hm hne
      · exact hcontract.2 _ _ _ _ hs
    · rw [if_neg hm]
      exact hm
  · split
    · split <;> exact ⟨rfl, rfl, rfl, rfl, rfl⟩
    · exact ⟨rfl, rfl, rfl, rfl, rfl⟩

theorem MixerReturnEffect.lazyInitAudioBuffers_effect (engine : Engine)
    (audioSettings : IPLAudioSettings) (numChannelsIn numChannelsOut : Int)
    (p : MixerReturnEffect.InitProgress) :
    (MixerReturnEffect.lazyInitAudioBuffers engine audioSettings numChannelsIn numChannelsOut
        p).effect.reflectionMixer = p.effect.reflectionMixer
      ∧ (MixerReturnEffect.lazyInitAudioBuffers engine audioSettings numChannelsIn
          numChannelsOut p).effect.ambisonicsEffect = p.effect.ambisonicsEffect
      ∧ (MixerReturnEffect.lazyInitAudioBuffers engine audioSettings numChannelsIn
          numChannelsOut p).effect.binaural = p.effect.binaural
      ∧ (p.effect.reflectionsBuffer.data ≠ nullptr →
          (MixerReturnEffect.lazyInitAudioBuffers engine audioSettings numChannelsIn
            numChannelsOut p).effect.reflectionsBuffer = p.effect.reflectionsBuffer)
      ∧ (p.effect.inBuffer.data ≠ nullptr →
          (MixerReturnEffect.lazyInitAudioBuffers engine audioSettings numChannelsIn
            numChannelsOut p).effect.inBuffer = p.effect.inBuffer)
      ∧ (p.effect.outBuffer.data ≠ nullptr →
          (MixerReturnEffect.lazyInitAudioBuffers engine audioSettings numChannelsIn
            numChannelsOut p).effect.outBuffer = p.effect.outBuffer) := by
  unfold MixerReturnEffect.lazyInitAudioBuffers
  split
  · refine ⟨rfl, rfl, rfl, ?_, ?_, ?_⟩
    · intro h
      dsimp only
      rw [if_neg h]
    · intro h
      dsimp only
      rw [if_neg h]
    · intro h
      dsimp only
      rw [if_neg h]
  · exact ⟨rfl, rfl, rfl, fun _ => rfl, fun _ => rfl, fun _ => rfl⟩

/-! ## `lazyInit` as a whole -/

theorem MixerReturnEffect.lazyInitResources_of_not_ready (host : Host) (engine : Engine)
    (g : Globals) (effect : MixerReturnEffect.State) (numChannelsIn numChannelsOut : Int)
    (h : g.gContext = nullptr ∨ g.gHRTF.2 = nullptr) :
    MixerReturnEffect.lazyInitResources host engine g effect numChannelsIn numChannelsOut
      = { initFlags := MixerReturnEffect.INIT_NONE, globals := g, effect := effect } := by
  unfold MixerReturnEffect.lazyInitResources
  by_cases hc : g.gContext = nullptr
  · rw [if_pos hc]
  · rw [if_neg hc]
    rcases h with h | h
    · exact absurd h hc
    · rw [if_pos h]

theorem MixerReturnEffect.lazyInitResources_of_ready (host : Host) (engine : Engine)
    (g : Globals) (effect : MixerReturnEffect.State) (numChannelsIn numChannelsOut : Int)
    (hc : g.gContext ≠ nullptr) (hh : g.gHRTF.2 ≠ nullptr) :
    MixerReturnEffect.lazyInitResources host engine g effect numChannelsIn numChannelsOut
      = MixerReturnEffect.lazyInitAudioBuffers engine (MixerReturnEffect.hostAudioSettings host)
          numChannelsIn numChannelsOut
          (MixerReturnEffect.lazyInitAmbisonicsEffect engine
            (MixerReturnEffect.hostAudioSettings host) numChannelsOut
            (MixerReturnEffect.lazyInitReflectionMixer engine
              (MixerReturnEffect.hostAudioSettings host)
              { initFlags := MixerReturnEffect.INIT_NONE, globals := g, effect := effect })) := by
  unfold MixerReturnEffect.lazyInitResources
  rw [if_neg hc, if_neg hh]

theorem MixerReturnEffect.lazyInitResources_globals (host : Host) (engine : Engine)
    (g : Globals) (effect : MixerReturnEffect.State) (numChannelsIn numChannelsOut : Int) :
    (MixerReturnEffect.lazyInitResources host engine g effect numChannelsIn
        numChannelsOut).globals.gContext = g.gContext
      ∧ (MixerReturnEffect.lazyInitResources host engine g effect numChannelsIn
        numChannelsOut).globals.gHRTF = g.gHRTF
      ∧ (MixerReturnEffect.lazyInitResources host engine g effect numChannelsIn
        numChannelsOut).globals.gIsSimulationSettingsValid = g.gIsSimulationSettingsValid := by
  by_cases h : g.gContext = nullptr ∨ g.gHRTF.2 = nullptr
  · rw [MixerReturnEffect.lazyInitResources_of_not_ready _ _ _ _ _ _ h]
    exact ⟨rfl, rfl, rfl⟩
  · rw [MixerReturnEffect.lazyInitResources_of_ready _ _ _ _ _ _ (fun e => h (Or.inl e))
      (fun e => h (Or.inr e)), MixerReturnEffect.lazyInitAudioBuffers_globals,
      MixerReturnEffect.lazyInitAmbisonicsEffect_globals]
    obtain ⟨f1, f2, _⟩ := MixerReturnEffect.lazyInitReflectionMixer_frame engine
      (MixerReturnEffect.hostAudioSettings host)
      { initFlags := MixerReturnEffect.INIT_NONE, globals := g, effect := effect }
    obtain ⟨_, n2, _⟩ := MixerReturnEffect.lazyInitReflectionMixer_noAdoption engine
      (MixerReturnEffect.hostAudioSettings host)
      { initFlags := MixerReturnEffect.INIT_NONE, globals := g, effect := effect }
    exact ⟨f1, n2, f2⟩

/-- The flags `lazyInitResources` returns, and what they say about the effect, when the
context and the staged HRTF are present. -/
theorem MixerReturnEffect.lazyInitResources_flags (host : Host) (engine : Engine)
    (g : Globals) (effect : MixerReturnEffect.State) (numChannelsIn numChannelsOut : Int)
    (hc : g.gContext ≠ nullptr) (hh : g.gHRTF.2 ≠ nullptr) :
    (MixerReturnEffect.hasFlag
        (MixerReturnEffect.lazyInitResources host engine g effect numChannelsIn
          numChannelsOut).initFlags MixerReturnEffect.INIT_REFLECTIONEFFECT
        = decide (g.gIsSimulationSettingsValid = true
          ∧ (effect.reflectionMixer ≠ nullptr
            ∨ (engine.iplReflectionMixerCreate g.gContext
                (MixerReturnEffect.hostAudioSettings host)
                { type := g.gSimulationSettings.reflectionType
                  numChannels := numChannelsForOrder g.gSimulationSettings.maxOrder }
                effect.reflectionMixer).1 = IPL_STATUS_SUCCESS)))
      ∧ (MixerReturnEffect.hasFlag
        (MixerReturnEffect.lazyInitResources host engine g effect numChannelsIn
          numChannelsOut).initFlags MixerReturnEffect.INIT_AMBISONICSEFFECT
        = decide ((0 < numChannelsOut ∧ g.gIsSimulationSettingsValid = true)
          ∧ (effect.ambisonicsEffect ≠ nullptr
            ∨ (engine.iplAmbisonicsDecodeEffectCreate g.gContext
                (MixerReturnEffect.hostAudioSettings host)
                { speakerLayout := speakerLayoutForNumChannels numChannelsOut
                  hrtf := g.gHRTF.2
                  maxOrder := g.gSimulationSettings.maxOrder }
                effect.ambisonicsEffect).1 = IPL_STATUS_SUCCESS)))
      ∧ (MixerReturnEffect.hasFlag
        (MixerReturnEffect.lazyInitResources host engine g effect numChannelsIn
          numChannelsOut).initFlags MixerReturnEffect.INIT_AUDIOBUFFERS
        = decide (0 < numChannelsIn ∧ 0 < numChannelsOut)) := by
  rw [MixerReturnEffect.lazyInitResources_of_ready _ _ _ _ _ _ hc hh,
    MixerReturnEffect.lazyInitAudioBuffers_initFlags,
    MixerReturnEffect.lazyInitAmbisonicsEffect_initFlags,
    MixerReturnEffect.lazyInitReflectionMixer_initFlags]
  obtain ⟨hr, ha, hb⟩ := MixerReturnEffect.hasFlag_of_latches
    (MixerReturnEffect.reflectionLatch engine (MixerReturnEffect.hostAudioSettings host)
      { initFlags := MixerReturnEffect.INIT_NONE, globals := g, effect := effect })
    (MixerReturnEffect.ambisonicsLatch engine (MixerReturnEffect.hostAudioSettings host)
      numChannelsOut
      (MixerReturnEffect.lazyInitReflectionMixer engine
        (MixerReturnEffect.hostAudioSettings host)
        { initFlags := MixerReturnEffect.INIT_NONE, globals := g, effect := effect }))
    (MixerReturnEffect.buffersLatch numChannelsIn numChannelsOut)
  obtain ⟨f1, f2, f3, f4, _⟩ := MixerReturnEffect.lazyInitReflectionMixer_frame engine
    (MixerReturnEffect.hostAudioSettings host)
    { initFlags := MixerReturnEffect.INIT_NONE, globals := g, effect := effect }
  obtain ⟨_, n2, _⟩ := MixerReturnEffect.lazyInitReflectionMixer_noAdoption engine
    (MixerReturnEffect.hostAudioSettings host)
    { initFlags := MixerReturnEffect.INIT_NONE, globals := g, effect := effect }
  refine ⟨hr.trans rfl, ha.trans ?_, hb.trans rfl⟩
  unfold MixerReturnEffect.ambisonicsLatch
  rw [f1, f2, f3, f4, n2]

theorem MixerReturnEffect.hasFlag_none (flag : Nat) :
    MixerReturnEffect.hasFlag MixerReturnEffect.INIT_NONE flag = false := by
  unfold MixerReturnEffect.hasFlag MixerReturnEffect.INIT_NONE
  simp

/-- What `lazyInitResources` does to the resources of the effect: a resource that exists is
left as it is, and a flag in the result means the resource exists afterwards (for an engine
that keeps its contract). -/
theorem MixerReturnEffect.lazyInitResources_effect (host : Host) (engine : Engine)
    (g : Globals) (effect : MixerReturnEffect.State) (numChannelsIn numChannelsOut : Int) :
    (effect.reflectionMixer ≠ nullptr →
        (MixerReturnEffect.lazyInitResources host engine g effect numChannelsIn
          numChannelsOut).effect.reflectionMixer = effect.reflectionMixer)
      ∧ (effect.ambisonicsEffect ≠ nullptr →
        (MixerReturnEffect.lazyInitResources host engine g effect numChannelsIn
          numChannelsOut).effect.ambisonicsEffect = effect.ambisonicsEffect)
      ∧ (engine.SuccessGivesObject →
        MixerReturnEffect.hasFlag
          (MixerReturnEffect.lazyInitResources host engine g effect numChannelsIn
            numChannelsOut).initFlags MixerReturnEffect.INIT_REFLECTIONEFFECT = true →
        (MixerReturnEffect.lazyInitResources host engine g effect numChannelsIn
          numChannelsOut).effect.reflectionMixer ≠ nullptr)
      ∧ (engine.SuccessGivesObject →
        MixerReturnEffect.hasFlag
          (MixerReturnEffect.lazyInitResources host engine g effect numChannelsIn
            numChannelsOut).initFlags MixerReturnEffect.INIT_AMBISONICSEFFECT = true →
        (MixerReturnEffect.lazyInitResources host engine g effect numChannelsIn
          numChannelsOut).effect.ambisonicsEffect ≠ nullptr)
      ∧ (MixerReturnEffect.lazyInitResources host engine g effect numChannelsIn
          numChannelsOut).effect.binaural = effect.binaural := by
  by_cases h : g.gContext = nullptr ∨ g.gHRTF.2 = nullptr
  · rw [MixerReturnEffect.lazyInitResources_of_not_ready _ _ _ _ _ _ h]
    refine ⟨fun _ => rfl, fun _ => rfl, ?_, ?_, rfl⟩
    · intro _ hflag
      rw [MixerReturnEffect.hasFlag_none] at hflag
      cases hflag
    · intro _ hflag
      rw [MixerReturnEffect.hasFlag_none] at hflag
      cases hflag
  · have hc : g.gContext ≠ nullptr := fun e => h (Or.inl e)
    have hh : g.gHRTF.2 ≠ nullptr := fun e => h (Or.inr e)
    obtain ⟨hfr, hfa, _⟩ := MixerReturnEffect.lazyInitResources_flags host engine g effect
      numChannelsIn numChannelsOut hc hh
    rw [hfr, hfa]
    rw [MixerReturnEffect.lazyInitResources_of_ready _ _ _ _ _ _ hc hh]
    obtain ⟨b1, b2, b3, _⟩ := MixerReturnEffect.lazyInitAudioBuffers_effect engine
      (MixerReturnEffect.hostAudioSettings host) numChannelsIn numChannelsOut
      (MixerReturnEffect.lazyInitAmbisonicsEffect engine
        (MixerReturnEffect.hostAudioSettings host) numChannelsOut
        (MixerReturnEffect.lazyInitReflectionMixer engine
          (MixerReturnEffect.hostAudioSettings host)
          { initFlags := MixerReturnEffect.INIT_NONE, globals := g, effect := effect }))
    obtain ⟨a1, a2, a3, _, _, _, a7⟩ := MixerReturnEffect.lazyInitAmbisonicsEffect_effect engine
      (MixerReturnEffect.hostAudioSettings host) numChannelsOut
      (MixerReturnEffect.lazyInitReflectionMixer engine
        (MixerReturnEffect.hostAudioSettings host)
        { initFlags := MixerReturnEffect.INIT_NONE, globals := g, effect := effect })
    obtain ⟨r1, r2⟩ := MixerReturnEffect.lazyInitReflectionMixer_mixer engine
      (MixerReturnEffect.hostAudioSettings host)
      { initFlags := MixerReturnEffect.INIT_NONE, globals := g, effect := effect }
    obtain ⟨f1, f2, f3, f4, _, _, _, f8⟩ := MixerReturnEffect.lazyInitReflectionMixer_frame
      engine (MixerReturnEffect.hostAudioSettings host)
      { initFlags := MixerReturnEffect.INIT_NONE, globals := g, effect := effect }
    obtain ⟨_, n2, _⟩ := MixerReturnEffect.lazyInitReflectionMixer_noAdoption engine
      (MixerReturnEffect.hostAudioSettings host)
      { initFlags := MixerReturnEffect.INIT_NONE, globals := g, effect := effect }
    rw [b1, b2, b3, a3, a7, f8]
    refine ⟨?_, ?_, ?_, ?_, rfl⟩
    · intro hm
      rw [r1 hm]
    · intro hm
      rw [a1 (by rw [f4]; exact hm), f4]
    · intro hcontract hflag
      exact r2 hcontract hflag
    · intro hcontract hflag
      apply a2 hcontract
      unfold MixerReturnEffect.ambisonicsLatch
      rw [f1, f2, f3, f4, n2]
      exact hflag

theorem MixerReturnEffect.lazyInitProvision_frame (host : Host) (engine : Engine)
    (g : Globals) :
    (MixerReturnEffect.lazyInitProvision host engine g).gIsSimulationSettingsValid
        = g.gIsSimulationSettingsValid
      ∧ (MixerReturnEffect.lazyInitProvision host engine g).gSimulationSettings
        = g.gSimulationSettings := by
  unfold MixerReturnEffect.lazyInitProvision initContextAndDefaultHRTF iplFMODSetHRTF
    iplFMODInitialize
  split
  · dsimp only
    split
    · exact ⟨rfl, rfl⟩
    · split <;> exact ⟨rfl, rfl⟩
  · exact ⟨rfl, rfl⟩

/-! ## Claims on `lazyInit` -/

/-- C12 (evaluation at the failing input): with the context present, an HRTF staged and the
settings valid, `lazyInit(state, 2, 2)` on a fresh effect, with an engine whose buffer
allocations fail, returns all three flags, `INIT_AUDIOBUFFERS` included, although the three
buffers still have null data; the PERFORM call of `process` on that block then goes on to
the DSP and returns `FMOD_OK` instead of `FMOD_ERR_DSP_SILENCE`. -/
theorem lazyInit_reports_buffers_after_failed_allocation :
    MixerReturnEffect.hasFlag
        (MixerReturnEffect.lazyInit sampleHost outOfMemoryEngine stagedGlobals
          MixerReturnEffect.State.new 2 2).initFlags MixerReturnEffect.INIT_AUDIOBUFFERS = true
      ∧ (MixerReturnEffect.lazyInit sampleHost outOfMemoryEngine stagedGlobals
          MixerReturnEffect.State.new 2 2).effect.reflectionsBuffer.data = nullptr
      ∧ (MixerReturnEffect.lazyInit sampleHost outOfMemoryEngine stagedGlobals
          MixerReturnEffect.State.new 2 2).effect.inBuffer.data = nullptr
      ∧ (MixerReturnEffect.lazyInit sampleHost outOfMemoryEngine stagedGlobals
          MixerReturnEffect.State.new 2 2).effect.outBuffer.data = nullptr
      ∧ (MixerReturnEffect.lazyInit sampleHost outOfMemoryEngine stagedGlobals
          MixerReturnEffect.State.new 2 2).initFlags = 7
      ∧ (MixerReturnEffect.process sampleHost outOfMemoryEngine stagedGlobals
          MixerReturnEffect.State.new 2 sampleBlock.inBuffers sampleBlock.outBuffers 0
          .FMOD_DSP_PROCESS_PERFORM).result = .FMOD_OK := by
  decide

/-- C14 as stated fails: with the context present, HRTF 2 staged but never adopted (the
active slot `gHRTF[0]` is null) and valid settings, `lazyInit` returns all three flags. -/
theorem lazyInit_active_hrtf_counterexample :
    ¬ ∀ (host : Host) (engine : Engine) (g : Globals) (effect : MixerReturnEffect.State)
        (numChannelsIn numChannelsOut : Int),
        (MixerReturnEffect.lazyInit host engine g effect numChannelsIn numChannelsOut).initFlags
            ≠ MixerReturnEffect.INIT_NONE →
          (MixerReturnEffect.lazyInit host engine g effect numChannelsIn
            numChannelsOut).globals.gHRTF.1 ≠ nullptr := by
  intro hall
  exact hall sampleHost sampleEngine stagedGlobals MixerReturnEffect.State.new 2 2
    (by decide) (by decide)

/-- C14 (amended): `lazyInit` returns a bitmask containing any flag only if, at return, the
engine context `gContext` is non-null and an HRTF is staged (`gHRTF[1]` non-null; the active
slot `gHRTF[0]` is not looked at); it contains `INIT_REFLECTIONEFFECT` or
`INIT_AMBISONICSEFFECT` only if `gIsSimulationSettingsValid` is true. When the context or
the staged HRTF is null at return, the result is `INIT_NONE` and the effect is unchanged (no
resource is created). -/
theorem lazyInit_gated_by_staged_hrtf (host : Host) (engine : Engine) (g : Globals)
    (effect : MixerReturnEffect.State) (numChannelsIn numChannelsOut : Int) :
    ((MixerReturnEffect.lazyInit host engine g effect numChannelsIn numChannelsOut).initFlags
        ≠ MixerReturnEffect.INIT_NONE →
      (MixerReturnEffect.lazyInit host engine g effect numChannelsIn
          numChannelsOut).globals.gContext ≠ nullptr
        ∧ (MixerReturnEffect.lazyInit host engine g effect numChannelsIn
          numChannelsOut).globals.gHRTF.2 ≠ nullptr)
      ∧ (MixerReturnEffect.hasFlag
            (MixerReturnEffect.lazyInit host engine g effect numChannelsIn
              numChannelsOut).initFlags MixerReturnEffect.INIT_REFLECTIONEFFECT = true
          ∨ MixerReturnEffect.hasFlag
            (MixerReturnEffect.lazyInit host engine g effect numChannelsIn
              numChannelsOut).initFlags MixerReturnEffect.INIT_AMBISONICSEFFECT = true →
        (MixerReturnEffect.lazyInit host engine g effect numChannelsIn
          numChannelsOut).globals.gIsSimulationSettingsValid = true)
      ∧ ((MixerReturnEffect.lazyInit host engine g effect numChannelsIn
            numChannelsOut).globals.gContext = nullptr
          ∨ (MixerReturnEffect.lazyInit host engine g effect numChannelsIn
            numChannelsOut).globals.gHRTF.2 = nullptr →
        (MixerReturnEffect.lazyInit host engine g effect numChannelsIn numChannelsOut).initFlags
            = MixerReturnEffect.INIT_NONE
          ∧ (MixerReturnEffect.lazyInit host engine g effect numChannelsIn
            numChannelsOut).effect = effect) := by
  unfold MixerReturnEffect.lazyInit
  obtain ⟨gc, gh, gv⟩ := MixerReturnEffect.lazyInitResources_globals host engine
    (MixerReturnEffect.lazyInitProvision host engine g) effect numChannelsIn numChannelsOut
  rw [gc, gh, gv]
  by_cases h : (MixerReturnEffect.lazyInitProvision host engine g).gContext = nullptr
      ∨ (MixerReturnEffect.lazyInitProvision host engine g).gHRTF.2 = nullptr
  · rw [MixerReturnEffect.lazyInitResources_of_not_ready _ _ _ _ _ _ h]
    refine ⟨fun hne => absurd rfl hne, ?_, fun _ => ⟨rfl, rfl⟩⟩
    intro hflag
    rw [MixerReturnEffect.hasFlag_none, MixerReturnEffect.hasFlag_none] at hflag
    rcases hflag with hf | hf <;> cases hf
  · have hc : (MixerReturnEffect.lazyInitProvision host engine g).gContext ≠ nullptr :=
      fun e => h (Or.inl e)
    have hh : (MixerReturnEffect.lazyInitProvision host engine g).gHRTF.2 ≠ nullptr :=
      fun e => h (Or.inr e)
    obtain ⟨hfr, hfa, _⟩ := MixerReturnEffect.lazyInitResources_flags host engine
      (MixerReturnEffect.lazyInitProvision host engine g) effect numChannelsIn numChannelsOut
      hc hh
    refine ⟨fun _ => ⟨hc, hh⟩, ?_, fun hnull => absurd hnull h⟩
    rw [hfr, hfa]
    intro hflag
    rcases hflag with hf | hf
    · exact (of_decide_eq_true hf).1
    · exact (of_decide_eq_true hf).1.2

/-- Witness of C14 (amended): on the staged globals `lazyInit` returns flags, and the
context and the staged HRTF are non-null; on the initial globals it returns `INIT_NONE`. -/
theorem lazyInit_gated_by_staged_hrtf_witness :
    (MixerReturnEffect.lazyInit sampleHost sampleEngine stagedGlobals
        MixerReturnEffect.State.new 2 2).initFlags ≠ MixerReturnEffect.INIT_NONE
      ∧ (MixerReturnEffect.lazyInit sampleHost sampleEngine stagedGlobals
        MixerReturnEffect.State.new 2 2).globals.gHRTF.2 ≠ nullptr
      ∧ (MixerReturnEffect.lazyInit sampleHost sampleEngine Globals.initial
        MixerReturnEffect.State.new 2 2).initFlags = MixerReturnEffect.INIT_NONE :=
  ⟨by decide,
    ((lazyInit_gated_by_staged_hrtf sampleHost sampleEngine stagedGlobals
      MixerReturnEffect.State.new 2 2).1 (by decide)).2,
    ((lazyInit_gated_by_staged_hrtf sampleHost sampleEngine Globals.initial
      MixerReturnEffect.State.new 2 2).2.2 (Or.inl rfl)).1⟩

/-! ## Flags and resources across calls -/

/-- A flag returned by `lazyInit` and the resource behind it, for an engine that keeps its
contract; resources that exist are kept; and the flags a call returns when the context and
the staged HRTF are present at return. -/
theorem MixerReturnEffect.lazyInit_flag_facts (host : Host) (engine : Engine) (g : Globals)
    (effect : MixerReturnEffect.State) (numChannelsIn numChannelsOut : Int) :
    (engine.SuccessGivesObject →
        MixerReturnEffect.hasFlag
          (MixerReturnEffect.lazyInit host engine g effect numChannelsIn numChannelsOut).initFlags
          MixerReturnEffect.INIT_REFLECTIONEFFECT = true →
        (MixerReturnEffect.lazyInit host engine g effect numChannelsIn
          numChannelsOut).effect.reflectionMixer ≠ nullptr
          ∧ g.gIsSimulationSettingsValid = true)
      ∧ (engine.SuccessGivesObject →
        MixerReturnEffect.hasFlag
          (MixerReturnEffect.lazyInit host engine g effect numChannelsIn numChannelsOut).initFlags
          MixerReturnEffect.INIT_AMBISONICSEFFECT = true →
        (MixerReturnEffect.lazyInit host engine g effect numChannelsIn
          numChannelsOut).effect.ambisonicsEffect ≠ nullptr
          ∧ g.gIsSimulationSettingsValid = true)
      ∧ (effect.reflectionMixer ≠ nullptr →
        (MixerReturnEffect.lazyInit host engine g effect numChannelsIn
          numChannelsOut).effect.reflectionMixer = effect.reflectionMixer)
      ∧ (effect.ambisonicsEffect ≠ nullptr →
        (MixerReturnEffect.lazyInit host engine g effect numChannelsIn
          numChannelsOut).effect.ambisonicsEffect = effect.ambisonicsEffect)
      ∧ (MixerReturnEffect.lazyInit host engine g effect numChannelsIn
          numChannelsOut).globals.gIsSimulationSettingsValid = g.gIsSimulationSettingsValid
      ∧ ((MixerReturnEffect.lazyInit host engine g effect numChannelsIn
            numChannelsOut).globals.gContext ≠ nullptr →
          (MixerReturnEffect.lazyInit host engine g effect numChannelsIn
            numChannelsOut).globals.gHRTF.2 ≠ nullptr →
          (g.gIsSimulationSettingsValid = true → effect.reflectionMixer ≠ nullptr →
            MixerReturnEffect.hasFlag
              (MixerReturnEffect.lazyInit host engine g effect numChannelsIn
                numChannelsOut).initFlags MixerReturnEffect.INIT_REFLECTIONEFFECT = true)
          ∧ (g.gIsSimulationSettingsValid = true → effect.ambisonicsEffect ≠ nullptr →
            0 < numChannelsOut →
            MixerReturnEffect.hasFlag
              (MixerReturnEffect.lazyInit host engine g effect numChannelsIn
                numChannelsOut).initFlags MixerReturnEffect.INIT_AMBISONICSEFFECT = true)
          ∧ (0 < numChannelsIn → 0 < numChannelsOut →
            MixerReturnEffect.hasFlag
              (MixerReturnEffect.lazyInit host engine g effect numChannelsIn
                numChannelsOut).initFlags MixerReturnEffect.INIT_AUDIOBUFFERS = true)) := by
  unfold MixerReturnEffect.lazyInit
  obtain ⟨gc, gh, gv⟩ := MixerReturnEffect.lazyInitResources_globals host engine
    (MixerReturnEffect.lazyInitProvision host engine g) effect numChannelsIn numChannelsOut
  obtain ⟨e1, e2, e3, e4, _⟩ := MixerReturnEffect.lazyInitResources_effect host engine
    (MixerReturnEffect.lazyInitProvision host engine g) effect numChannelsIn numChannelsOut
  obtain ⟨pv, _⟩ := MixerReturnEffect.lazyInitProvision_frame host engine g
  have hvalid : ∀ flag, flag = MixerReturnEffect.INIT_REFLECTIONEFFECT
        ∨ flag = MixerReturnEffect.INIT_AMBISONICSEFFECT →
      MixerReturnEffect.hasFlag
        (MixerReturnEffect.lazyInitResources host engine
          (MixerReturnEffect.lazyInitProvision host engine g) effect numChannelsIn
          numChannelsOut).initFlags flag = true →
      g.gIsSimulationSettingsValid = true := by
    intro flag hkind hflag
    by_cases h : (MixerReturnEffect.lazyInitProvision host engine g).gContext = nullptr
        ∨ (MixerReturnEffect.lazyInitProvision host engine g).gHRTF.2 = nullptr
    · rw [MixerReturnEffect.lazyInitResources_of_not_ready _ _ _ _ _ _ h,
        MixerReturnEffect.hasFlag_none] at hflag
      cases hflag
    · obtain ⟨hfr, hfa, _⟩ := MixerReturnEffect.lazyInitResources_flags host engine
        (MixerReturnEffect.lazyInitProvision host engine g) effect numChannelsIn
        numChannelsOut (fun e => h (Or.inl e)) (fun e => h (Or.inr e))
      rw [← pv]
      rcases hkind with hk | hk
      · rw [hk, hfr] at hflag
        exact (of_decide_eq_true hflag).1
      · rw [hk, hfa] at hflag
        exact (of_decide_eq_true hflag).1.2
  refine ⟨fun hcontract hflag => ⟨e3 hcontract hflag, hvalid _ (Or.inl rfl) hflag⟩,
    fun hcontract hflag => ⟨e4 hcontract hflag, hvalid _ (Or.inr rfl) hflag⟩, e1, e2,
    gv.trans pv, ?_⟩
  rw [gc, gh]
  intro hc hh
  obtain ⟨hfr, hfa, hfb⟩ := MixerReturnEffect.lazyInitResources_flags host engine
    (MixerReturnEffect.lazyInitProvision host engine g) effect numChannelsIn numChannelsOut
    hc hh
  rw [hfr, hfa, hfb, pv]
  refine ⟨?_, ?_, ?_⟩
  · intro hv hm
    exact decide_eq_true ⟨hv, Or.inl hm⟩
  · intro hv hm hout
    exact decide_eq_true ⟨⟨hout, hv⟩, Or.inl hm⟩
  · intro hin hout
    exact decide_eq_true ⟨hin, hout⟩

theorem ControlCall.apply_valid (g : Globals) (call : ControlCall)
    (h : g.gIsSimulationSettingsValid = true) :
    (call.apply g).gIsSimulationSettingsValid = true := by
  cases call with
  | contextInit context => exact h
  | setHRTF hrtf =>
    show (iplFMODSetHRTF g hrtf).gIsSimulationSettingsValid = true
    unfold iplFMODSetHRTF
    split
    · exact h
    · split
      · exact h
      · exact h
  | setSimulationSettings simulationSettings => rfl
  | setReverbSource reverbSource =>
    show (iplFMODSetReverbSource g reverbSource).gIsSimulationSettingsValid = true
    unfold iplFMODSetReverbSource
    split
    · exact h
    · split
      · exact h
      · exact h
  | addSource source =>
    show (iplFMODAddSource g source).2.gIsSimulationSettingsValid = true
    unfold iplFMODAddSource
    split
    · exact h
    · exact h
  | removeSource handle =>
    show (iplFMODRemoveSource g handle).gIsSimulationSettingsValid = true
    unfold iplFMODRemoveSource
    split
    · exact h
    · exact h

/-- What every step keeps: valid settings stay valid, and an existing reflection mixer or
ambisonics effect stays the same object. -/
theorem EffectStep.apply_keeps (w : EffectWorld) (step : EffectStep) :
    (w.globals.gIsSimulationSettingsValid = true →
        (EffectStep.apply w step).globals.gIsSimulationSettingsValid = true)
      ∧ (w.effect.reflectionMixer ≠ nullptr →
        (EffectStep.apply w step).effect.reflectionMixer = w.effect.reflectionMixer)
      ∧ (w.effect.ambisonicsEffect ≠ nullptr →
        (EffectStep.apply w step).effect.ambisonicsEffect = w.effect.ambisonicsEffect) := by
  cases step with
  | lazyInit call =>
    obtain ⟨_, _, k1, k2, kv, _⟩ := MixerReturnEffect.lazyInit_flag_facts call.host
      call.engine w.globals w.effect call.numChannelsIn call.numChannelsOut
    exact ⟨fun h => kv.trans h, k1, k2⟩
  | control call => exact ⟨ControlCall.apply_valid w.globals call, fun _ => rfl, fun _ => rfl⟩

theorem EffectWorld.run_keeps (steps : List EffectStep) :
    ∀ w : EffectWorld,
      (w.globals.gIsSimulationSettingsValid = true →
          (w.run steps).globals.gIsSimulationSettingsValid = true)
        ∧ (w.effect.reflectionMixer ≠ nullptr →
          (w.run steps).effect.reflectionMixer = w.effect.reflectionMixer)
        ∧ (w.effect.ambisonicsEffect ≠ nullptr →
          (w.run steps).effect.ambisonicsEffect = w.effect.ambisonicsEffect) := by
  induction steps with
  | nil => intro w; exact ⟨id, fun _ => rfl, fun _ => rfl⟩
  | cons step rest ih =>
    intro w
    obtain ⟨s1, s2, s3⟩ := EffectStep.apply_keeps w step
    obtain ⟨r1, r2, r3⟩ := ih (EffectStep.apply w step)
    unfold EffectWorld.run at r1 r2 r3 ⊢
    rw [List.foldl_cons]
    refine ⟨fun h => r1 (s1 h), ?_, ?_⟩
    · intro h
      rw [r2 (by rw [s2 h]; exact h), s2 h]
    · intro h
      rw [r3 (by rw [s3 h]; exact h), s3 h]

/-- C13 as stated fails: the bitmask is recomputed on every call. On a fresh effect with the
context present, an HRTF staged and valid settings, a `lazyInit` call with channel counts
(2, 2) returns `INIT_AUDIOBUFFERS`, and a later call with channel counts (0, 0) does not.
Likewise, with the same channel counts (2, 2) in both calls, the control call
`iplFMODSetHRTF(nullptr)` in between (no publish pending) empties the staged slot and the
second call returns `INIT_NONE`. -/
theorem latch_bits_counterexample :
    (¬ ∀ (w : EffectWorld) (c1 : LazyInitCall) (steps : List EffectStep) (c2 : LazyInitCall)
        (flag : Nat),
        flag = MixerReturnEffect.INIT_AUDIOBUFFERS
          ∨ flag = MixerReturnEffect.INIT_REFLECTIONEFFECT
          ∨ flag = MixerReturnEffect.INIT_AMBISONICSEFFECT →
        MixerReturnEffect.hasFlag (c1.result w).initFlags flag = true →
        MixerReturnEffect.hasFlag
          (c2.result ((EffectStep.apply w (.lazyInit c1)).run steps)).initFlags flag = true)
      ∧ ((LazyInitCall.result
            { host := sampleHost, engine := sampleEngine, numChannelsIn := 2,
              numChannelsOut := 2 }
            { globals := adoptHRTF stagedGlobals,
              effect := MixerReturnEffect.State.new }).initFlags = 7
        ∧ (LazyInitCall.result
            { host := sampleHost, engine := sampleEngine, numChannelsIn := 2,
              numChannelsOut := 2 }
            ((EffectStep.apply
                { globals := adoptHRTF stagedGlobals, effect := MixerReturnEffect.State.new }
                (.lazyInit
                  { host := sampleHost, engine := sampleEngine, numChannelsIn := 2,
                    numChannelsOut := 2 })).run
              [.control (.setHRTF nullptr)])).initFlags = MixerReturnEffect.INIT_NONE) := by
  constructor
  · intro hall
    have h := hall { globals := stagedGlobals, effect := MixerReturnEffect.State.new }
      { host := sampleHost, engine := sampleEngine, numChannelsIn := 2, numChannelsOut := 2 }
      []
      { host := sampleHost, engine := sampleEngine, numChannelsIn := 0, numChannelsOut := 0 }
      MixerReturnEffect.INIT_AUDIOBUFFERS (Or.inl rfl) (by decide)
    revert h
    decide
  · decide

/-- C13 (amended): for every effect instance and every sequence of `lazyInit` calls on it
(arbitrary channel counts per call) interleaved with control-API calls other than
`iplFMODTerminate`: once a latch bit appears in a returned bitmask, it appears in the bitmask
of every later call whose gate for that bit is open, that is, a call that returns with
`gContext` and the staged HRTF `gHRTF[1]` non-null, has `numChannelsOut > 0` for
`INIT_AMBISONICSEFFECT`, and has `numChannelsIn > 0` and `numChannelsOut > 0` for
`INIT_AUDIOBUFFERS` (the engine being one whose creations leave an object when they report
success). What is one-way is the resource behind a bit: a reflection mixer or ambisonics
effect that exists stays the same object through every such sequence. -/
theorem latch_bits_persist_while_gate_open (w : EffectWorld) (c1 : LazyInitCall)
    (steps : List EffectStep) (c2 : LazyInitCall) (flag : Nat)
    (hkind : flag = MixerReturnEffect.INIT_AUDIOBUFFERS
      ∨ flag = MixerReturnEffect.INIT_REFLECTIONEFFECT
      ∨ flag = MixerReturnEffect.INIT_AMBISONICSEFFECT)
    (hcontract : c1.engine.SuccessGivesObject)
    (hfirst : MixerReturnEffect.hasFlag (c1.result w).initFlags flag = true)
    (hctx : (c2.result ((EffectStep.apply w (.lazyInit c1)).run steps)).globals.gContext
      ≠ nullptr)
    (hhrtf : (c2.result ((EffectStep.apply w (.lazyInit c1)).run steps)).globals.gHRTF.2
      ≠ nullptr)
    (hout : flag ≠ MixerReturnEffect.INIT_REFLECTIONEFFECT → 0 < c2.numChannelsOut)
    (hin : flag = MixerReturnEffect.INIT_AUDIOBUFFERS → 0 < c2.numChannelsIn) :
    MixerReturnEffect.hasFlag
        (c2.result ((EffectStep.apply w (.lazyInit c1)).run steps)).initFlags flag = true
      ∧ (w.effect.reflectionMixer ≠ nullptr →
          (w.run steps).effect.reflectionMixer = w.effect.reflectionMixer)
      ∧ (w.effect.ambisonicsEffect ≠ nullptr →
          (w.run steps).effect.ambisonicsEffect = w.effect.ambisonicsEffect) := by
  refine ⟨?_, (EffectWorld.run_keeps steps w).2.1, (EffectWorld.run_keeps steps w).2.2⟩
  obtain ⟨a1, a2, _, _, av, _⟩ := MixerReturnEffect.lazyInit_flag_facts c1.host c1.engine
    w.globals w.effect c1.numChannelsIn c1.numChannelsOut
  obtain ⟨rv, rm, ra⟩ := EffectWorld.run_keeps steps (EffectStep.apply w (.lazyInit c1))
  obtain ⟨_, _, _, _, _, b⟩ := MixerReturnEffect.lazyInit_flag_facts c2.host c2.engine
    ((EffectStep.apply w (.lazyInit c1)).run steps).globals
    ((EffectStep.apply w (.lazyInit c1)).run steps).effect c2.numChannelsIn c2.numChannelsOut
  obtain ⟨br, ba, bb⟩ := b hctx hhrtf
  rcases hkind with hk | hk | hk
  · rw [hk]
    exact bb (hin hk) (hout (by rw [hk]; decide))
  · rw [hk] at hfirst ⊢
    obtain ⟨hm, hv⟩ := a1 hcontract hfirst
    exact br (rv (av.trans hv)) (by rw [rm hm]; exact hm)
  · rw [hk] at hfirst ⊢
    obtain ⟨hm, hv⟩ := a2 hcontract hfirst
    exact ba (rv (av.trans hv)) (by rw [ra hm]; exact hm) (hout (by rw [hk]; decide))

theorem sampleEngine_successGivesObject : sampleEngine.SuccessGivesObject := by
  constructor
  · intro _ _ _ _ _
    show (3 : Nat) ≠ 0
    decide
  · intro _ _ _ _ _
    show (4 : Nat) ≠ 0
    decide

/-- Witness of C13 (amended): a first call with channel counts (2, 2) returns
`INIT_AMBISONICSEFFECT`; after new simulation settings and a call with channel counts (0, 0),
a call with channel counts (2, 2) returns it again. -/
theorem latch_bits_persist_while_gate_open_witness :
    MixerReturnEffect.hasFlag
        (LazyInitCall.result
          { host := sampleHost, engine := sampleEngine, numChannelsIn := 2, numChannelsOut := 2 }
          { globals := stagedGlobals, effect := MixerReturnEffect.State.new }).initFlags
        MixerReturnEffect.INIT_AMBISONICSEFFECT = true
      ∧ MixerReturnEffect.hasFlag
        (LazyInitCall.result
          { host := sampleHost, engine := sampleEngine, numChannelsIn := 2, numChannelsOut := 2 }
          ((EffectStep.apply { globals := stagedGlobals, effect := MixerReturnEffect.State.new }
              (.lazyInit
                { host := sampleHost, engine := sampleEngine, numChannelsIn := 2,
                  numChannelsOut := 2 })).run
            [.control
                (.setSimulationSettings { reflectionType := 1, maxOrder := 2, tanDevice := 0 }),
              .lazyInit
                { host := sampleHost, engine := sampleEngine, numChannelsIn := 0,
                  numChannelsOut := 0 }])).initFlags
        MixerReturnEffect.INIT_AMBISONICSEFFECT = true :=
  ⟨by decide,
    (latch_bits_persist_while_gate_open
      { globals := stagedGlobals, effect := MixerReturnEffect.State.new }
      { host := sampleHost, engine := sampleEngine, numChannelsIn := 2, numChannelsOut := 2 }
      [.control (.setSimulationSettings { reflectionType := 1, maxOrder := 2, tanDevice := 0 }),
        .lazyInit
          { host := sampleHost, engine := sampleEngine, numChannelsIn := 0,
            numChannelsOut := 0 }]
      { host := sampleHost, engine := sampleEngine, numChannelsIn := 2, numChannelsOut := 2 }
      MixerReturnEffect.INIT_AMBISONICSEFFECT (Or.inr (Or.inr rfl))
      sampleEngine_successGivesObject (by decide) (by decide) (by decide)
      (fun _ => by decide) (fun _ => by decide)).1⟩

/-! ## The locks of the registry -/

/-- Run alone, the steps of each method do what the method does. -/
theorem Instr.runAlone_methods (fr : Frame) (source : IPLSource) (handle : Int) :
    (Instr.runAlone (addSourceInstrs source) fr).sm = (fr.sm.addSource source).2
      ∧ (Instr.runAlone (addSourceInstrs source) fr).handle = (fr.sm.addSource source).1
      ∧ (Instr.runAlone (removeSourceInstrs handle) fr).sm = fr.sm.removeSource handle
      ∧ (Instr.runAlone (getSourceInstrs handle) fr).returned = (fr.sm.getSource handle).1
      ∧ (Instr.runAlone (getSourceInstrs handle) fr).sm = (fr.sm.getSource handle).2 :=
  ⟨rfl, rfl, rfl, rfl, rfl⟩

theorem MethodCall.instrs_disjoint (call : MethodCall) :
    disjointSections none call.instrs = true := by
  cases call <;> rfl

theorem disjointSections_append (b : List Instr) (hb : disjointSections none b = true)
    (a : List Instr) :
    ∀ held : Option Mutex, disjointSections held a = true →
      disjointSections held (a ++ b) = true := by
  induction a with
  | nil =>
    intro held ha
    cases held with
    | none => exact hb
    | some m => cases ha
  | cons instr rest ih =>
    intro held ha
    cases instr with
    | exec f =>
      cases held with
      | none => exact ih none ha
      | some m => exact ih (some m) ha
    | lock m =>
      cases held with
      | none => exact ih (some m) ha
      | some m0 => cases ha
    | unlock m =>
      cases held with
      | none => cases ha
      | some m0 =>
        simp only [disjointSections, List.cons_append, Bool.and_eq_true] at ha ⊢
        exact ⟨ha.1, ih none ha.2⟩

theorem threadProgram_disjoint (calls : List MethodCall) :
    disjointSections none (threadProgram calls) = true := by
  induction calls with
  | nil => rfl
  | cons call rest ih =>
    exact disjointSections_append _ ih _ none (MethodCall.instrs_disjoint call)

theorem LockState.start_disciplined (calls : Nat → List MethodCall) :
    (LockState.start calls).Disciplined := by
  intro i
  left
  refine ⟨threadProgram_disjoint (calls i), ?_⟩
  intro m h
  cases h

theorem LockState.step_disciplined (s s2 : LockState) (i : Nat) (hs : s.Disciplined)
    (hstep : s.step i = some s2) : s2.Disciplined := by
  unfold LockState.step at hstep
  cases htodo : s.todo i with
  | nil =>
    rw [htodo] at hstep
    cases hstep
  | cons instr rest =>
    rw [htodo] at hstep
    cases instr with
    | exec f =>
      simp only [Option.some.injEq] at hstep
      subst hstep
      intro j
      by_cases hj : j = i
      · subst hj
        simp only [Function.update_same]
        rcases hs j with ⟨hd, hown⟩ | ⟨m, hd, hown, hother⟩
        · rw [htodo] at hd
          exact Or.inl ⟨hd, hown⟩
        · rw [htodo] at hd
          exact Or.inr ⟨m, hd, hown, hother⟩
      · simp only [Function.update_noteq hj]
        exact hs j
    | lock m =>
      dsimp only at hstep
      by_cases hfree : s.owner m = none
      · rw [if_pos hfree] at hstep
        simp only [Option.some.injEq] at hstep
        subst hstep
        intro j
        by_cases hj : j = i
        · subst hj
          simp only [Function.update_same]
          rcases hs j with ⟨hd, hown⟩ | ⟨m0, hd, _, _⟩
          · rw [htodo] at hd
            refine Or.inr ⟨m, hd, Function.update_same _ _ _, ?_⟩
            intro m2 hm2
            rw [Function.update_noteq hm2]
            exact hown m2
          · rw [htodo] at hd
            cases hd
        · have hij : some i ≠ some j := fun e => hj (Option.some.inj e).symm
          simp only [Function.update_noteq hj]
          rcases hs j with ⟨hd, hown⟩ | ⟨m0, hd, hown, hother⟩
          · refine Or.inl ⟨hd, ?_⟩
            intro m2
            by_cases hm2 : m2 = m
            · rw [hm2, Function.update_same]
              exact hij
            · rw [Function.update_noteq hm2]
              exact hown m2
          · have hm0 : m0 ≠ m := by
              intro e
              rw [e, hfree] at hown
              cases hown
            refine Or.inr ⟨m0, hd, by rw [Function.update_noteq hm0]; exact hown, ?_⟩
            intro m2 hm2
            by_cases hm2m : m2 = m
            · rw [hm2m, Function.update_same]
              exact hij
            · rw [Function.update_noteq hm2m]
              exact hother m2 hm2
      · rw [if_neg hfree] at hstep
        cases hstep
    | unlock m =>
      dsimp only at hstep
      by_cases howner : s.owner m = some i
      · rw [if_pos howner] at hstep
        simp only [Option.some.injEq] at hstep
        subst hstep
        intro j
        by_cases hj : j = i
        · subst hj
          simp only [Function.update_same]
          rcases hs j with ⟨hd, _⟩ | ⟨m0, hd, _, hother⟩
          · rw [htodo] at hd
            cases hd
          · rw [htodo] at hd
            simp only [disjointSections, Bool.and_eq_true, decide_eq_true_eq] at hd
            obtain ⟨hm0, hrest⟩ := hd
            refine Or.inl ⟨hrest, ?_⟩
            intro m2
            by_cases hm2 : m2 = m
            · rw [hm2, Function.update_same]
              exact fun e => Option.noConfusion e
            · rw [Function.update_noteq hm2]
              exact hother m2 (by rw [hm0]; exact hm2)
        · have hij : some i ≠ some j := fun e => hj (Option.some.inj e).symm
          simp only [Function.update_noteq hj]
          rcases hs j with ⟨hd, hown⟩ | ⟨m0, hd, hown, hother⟩
          · refine Or.inl ⟨hd, ?_⟩
            intro m2
            by_cases hm2 : m2 = m
            · rw [hm2, Function.update_same]
              exact fun e => Option.noConfusion e
            · rw [Function.update_noteq hm2]
              exact hown m2
          · have hm0 : m0 ≠ m := by
              intro e
              rw [e, howner] at hown
              exact hij hown
            refine Or.inr ⟨m0, hd, by rw [Function.update_noteq hm0]; exact hown, ?_⟩
            intro m2 hm2
            by_cases hm2m : m2 = m
            · rw [hm2m, Function.update_same]
              exact fun e => Option.noConfusion e
            · rw [Function.update_noteq hm2m]
              exact hother m2 hm2
      · rw [if_neg howner] at hstep
        cases hstep

theorem LockState.reachable_disciplined (calls : Nat → List MethodCall) (s : LockState)
    (h : LockState.Reachable calls s) : s.Disciplined := by
  induction h with
  | start => exact LockState.start_disciplined calls
  | next s s2 i _ hstep ih => exact LockState.step_disciplined s s2 i ih hstep

theorem LockState.disciplined_one_lock (s : LockState) (hs : s.Disciplined) (i : Nat)
    (m m2 : Mutex) (h1 : s.owner m = some i) (h2 : s.owner m2 = some i) : m = m2 := by
  rcases hs i with ⟨_, hown⟩ | ⟨m0, _, _, hother⟩
  · exact absurd h1 (hown m)
  · by_contra hne
    by_cases hm : m = m0
    · exact hother m2 (fun e => hne (hm.trans e.symm)) h2
    · exact hother m hm h1

theorem LockState.disciplined_progress (s : LockState) (hs : s.Disciplined) (i : Nat)
    (hwork : s.todo i ≠ []) : ∃ (j : Nat) (s2 : LockState), s.step j = some s2 := by
  cases htodo : s.todo i with
  | nil => exact absurd htodo hwork
  | cons instr rest =>
    cases instr with
    | exec f => exact ⟨i, _, by unfold LockState.step; rw [htodo]⟩
    | unlock m =>
      rcases hs i with ⟨hd, _⟩ | ⟨m0, hd, hown, _⟩
      · rw [htodo] at hd
        cases hd
      · rw [htodo] at hd
        simp only [disjointSections, Bool.and_eq_true, decide_eq_true_eq] at hd
        rw [hd.1] at hown
        exact ⟨i, _, by unfold LockState.step; rw [htodo]; simp only; rw [if_pos hown]⟩
    | lock m =>
      cases howner : s.owner m with
      | none => exact ⟨i, _, by unfold LockState.step; rw [htodo]; simp only; rw [if_pos howner]⟩
      | some j =>
        rcases hs j with ⟨_, hown⟩ | ⟨m0, hd, hown, hother⟩
        · exact absurd howner (hown m)
        · have hm : m = m0 := by
            by_contra hne
            exact hother m hne howner
          subst hm
          cases hj : s.todo j with
          | nil =>
            rw [hj] at hd
            cases hd
          | cons instr2 rest2 =>
            rw [hj] at hd
            cases instr2 with
            | exec f => exact ⟨j, _, by unfold LockState.step; rw [hj]⟩
            | lock m3 => cases hd
            | unlock m3 =>
              simp only [disjointSections, Bool.and_eq_true, decide_eq_true_eq] at hd
              rw [hd.1] at hown
              exact ⟨j, _, by unfold LockState.step; rw [hj]; simp only; rw [if_pos hown]⟩

/-- C18: in every execution of `addSource`, `removeSource` and `getSource` the critical
sections of `mHandleMutex` and `mSourceMutex` are disjoint (a mutex is never locked while the
other is held); hence, for any number of threads making any sequences of these calls
concurrently, in every reachable state no thread holds both mutexes, and there is no
deadlock: as long as some thread has steps left, some thread can execute its next step. -/
theorem registry_locks_disjoint_no_deadlock (calls : Nat → List MethodCall) (s : LockState)
    (hreach : LockState.Reachable calls s) :
    (∀ call : MethodCall, disjointSections none call.instrs = true)
      ∧ (∀ (i : Nat) (m m2 : Mutex), s.owner m = some i → s.owner m2 = some i → m = m2)
      ∧ (∀ i : Nat, s.todo i ≠ [] → ∃ (j : Nat) (s2 : LockState), s.step j = some s2) :=
  ⟨MethodCall.instrs_disjoint,
    LockState.disciplined_one_lock s (LockState.reachable_disciplined calls s hreach),
    LockState.disciplined_progress s (LockState.reachable_disciplined calls s hreach)⟩

/-- Witness of C18: thread 0 inside `addSource` holding `mHandleMutex` while thread 1 is
inside `removeSource` holding `mSourceMutex` (a reachable state): some thread can go on. -/
theorem registry_locks_disjoint_no_deadlock_witness :
    ∃ s : LockState, LockState.Reachable sampleThreads s
      ∧ s.owner .mHandleMutex = some 0 ∧ s.owner .mSourceMutex = some 1
      ∧ ∃ (j : Nat) (s2 : LockState), s.step j = some s2 := by
  have h0 : LockState.Reachable sampleThreads (LockState.start sampleThreads) :=
    LockState.Reachable.start
  have h1 := LockState.Reachable.next _ _ 0 h0 rfl
  have h2 := LockState.Reachable.next _ _ 0 h1 rfl
  have h3 := LockState.Reachable.next _ _ 1 h2 rfl
  have h4 := LockState.Reachable.next _ _ 1 h3 rfl
  exact ⟨_, h4, rfl, rfl,
    (registry_locks_disjoint_no_deadlock sampleThreads _ h4).2.2 0 (by intro h; cases h)⟩

/-! ## The parameter of the effect -/

theorem MixerReturnEffect.lazyInit_binaural (host : Host) (engine : Engine) (g : Globals)
    (effect : MixerReturnEffect.State) (numChannelsIn numChannelsOut : Int) :
    (MixerReturnEffect.lazyInit host engine g effect numChannelsIn numChannelsOut).effect.binaural
      = effect.binaural := by
  unfold MixerReturnEffect.lazyInit
  exact (MixerReturnEffect.lazyInitResources_effect host engine
    (MixerReturnEffect.lazyInitProvision host engine g) effect numChannelsIn
    numChannelsOut).2.2.2.2

/-- C21: for every effect state, every `FMOD_BOOL` value `v` and whatever the output variable
held before, after `setBool(BINAURAL, v)` (which returns `FMOD_OK`) a following
`getBool(BINAURAL)` returns `FMOD_OK` and yields 1 if `v` is non-zero and 0 if `v` is zero
(so 1, not 5, after `setBool(BINAURAL, 5)`), and the rest of the effect state is as before;
and immediately after `create` (which returns `FMOD_OK`), `getBool(BINAURAL)` returns
`FMOD_OK` and yields 0, whatever the globals, the host and the engine are. -/
theorem setBool_getBool_round_trip (effect : MixerReturnEffect.State) (v previous : Int)
    (host : Host) (engine : Engine) (g : Globals) :
    (MixerReturnEffect.setBool effect MixerReturnEffect.BINAURAL v).1 = .FMOD_OK
      ∧ MixerReturnEffect.getBool
          (MixerReturnEffect.setBool effect MixerReturnEffect.BINAURAL v).2
          MixerReturnEffect.BINAURAL previous
        = (.FMOD_OK, if v = 0 then 0 else 1)
      ∧ (MixerReturnEffect.setBool effect MixerReturnEffect.BINAURAL v).2
        = { effect with binaural := decide (v ≠ 0) }
      ∧ MixerReturnEffect.getBool
          (MixerReturnEffect.setBool effect MixerReturnEffect.BINAURAL 5).2
          MixerReturnEffect.BINAURAL previous
        = (.FMOD_OK, 1)
      ∧ (MixerReturnEffect.create host engine g).1 = .FMOD_OK
      ∧ MixerReturnEffect.getBool (MixerReturnEffect.create host engine g).2.2
          MixerReturnEffect.BINAURAL previous
        = (.FMOD_OK, 0) := by
  refine ⟨rfl, ?_, rfl, rfl, rfl, ?_⟩
  · unfold MixerReturnEffect.setBool MixerReturnEffect.getBool
    rw [if_pos rfl, if_pos rfl]
    by_cases hv : v = 0
    · simp [hv]
    · simp [hv]
  · have hb : (MixerReturnEffect.create host engine g).2.2.binaural = false :=
      MixerReturnEffect.lazyInit_binaural host engine g
        (MixerReturnEffect.reset MixerReturnEffect.State.new) 0 0
    unfold MixerReturnEffect.getBool
    rw [if_pos rfl, hb]
    rfl

end SteamAudioFMOD
